import Mathlib

/-!
# SD card SPI transport (sdcard.c) and the VFO countdown (main.c): shallow embedding

The driver talks to the card through a byte-exchange primitive and a
millisecond countdown.  Both are external to the driver, so the embedding
makes them explicit:

* `Env.card k` is the byte the card shifts out during the `k`-th exchange
  of the run (only its low 8 bits are seen by the driver);
* `Env.tick k` is the number of 1 kHz timer interrupts that fire while the
  `k`-th exchange is in progress, i.e. before the driver reads the countdown
  again.

The driver state records how many exchanges were made, the countdown, the
chip-select line and the trace of everything done on the bus.  Every
`do ... while` loop runs under a fuel bound, and so does the recursive call of
`send_cmd`; `none` means the fuel ran out.  The theorems state how much fuel
is enough.  FatFs, which `SD_Init` and `SD_BuildDirectory` call, is an oracle
(`FatEnv`) together with the list of calls made.
-/

namespace SDCard

/-- One observable action on the bus. -/
inductive Event where
  | csLow : Event
  | csHigh : Event
  | xchg (tx rx : Nat) : Event
  deriving DecidableEq

/-- The card and the timer interrupt, as seen from the driver. -/
structure Env where
  card : Nat → Nat
  tick : Nat → Nat

/-- Driver-visible state. -/
structure State where
  pos : Nat
  Timer1 : Nat
  cs : Bool
  log : List Event
  deriving DecidableEq

/-- Modelled from the spec: one tick of the external 1 kHz source on the shared
countdown behind `Timer_Counter1Set` and `Timer_Counter1Get` of the absent
timer.h (§4.2): the countdown goes down by one and stops at zero. -/
def countdown_tick (n : Nat) : Nat := if n ≠ 0 then n - 1 else n

/-- The countdown statement of `disk_timerproc`, `n = Timer1; if (n) Timer1 = --n;`
with `WORD n` a 16-bit unsigned local: the counter is read into `n` modulo
2^16, and when `n` is not zero the counter is set to `--n`. -/
def disk_timerproc (Timer1 : Nat) : Nat :=
  let n := Timer1 % 65536
  if n ≠ 0 then (n + 65535) % 65536 else Timer1

/-- Modelled from the spec: `spi_tx` of the absent spi.h, the byte-exchange
primitive of §4.1/§6: it sends the given byte and returns the byte shifted in
at the same time.  The timer interrupts due during the exchange are applied
to the countdown. -/
def spi_tx (env : Env) (data : Nat) (st : State) : Nat × State :=
  let rx := env.card st.pos % 256
  (rx, { pos := st.pos + 1
         Timer1 := Nat.iterate countdown_tick (env.tick st.pos) st.Timer1
         cs := st.cs
         log := st.log ++ [Event.xchg (data % 256) rx] })

/-- Modelled from the spec: `spi_rx` of the absent spi.h, a receive is an
exchange with the filler byte 0xFF (§4.1, §4.5). -/
def spi_rx (env : Env) (st : State) : Nat × State := spi_tx env 0xFF st

/-- Modelled from the spec: `spi_select` of the absent spi.h drives
chip-select active (§4.1). -/
def spi_select (st : State) : State := { st with cs := true, log := st.log ++ [Event.csLow] }

/-- Modelled from the spec: `spi_deselect` of the absent spi.h drives
chip-select inactive (§4.1). -/
def spi_deselect (st : State) : State := { st with cs := false, log := st.log ++ [Event.csHigh] }

/-- Modelled from the spec: `Timer_Counter1Set` of the absent timer.h arms the
shared countdown (§4.2). -/
def Timer_Counter1Set (wt : Nat) (st : State) : State := { st with Timer1 := wt }

/-- Modelled from the spec: `Timer_Counter1Get` of the absent timer.h reads the
shared countdown; the caller only tests it against zero (§4.2). -/
def Timer_Counter1Get (st : State) : Nat := st.Timer1

/-- Modelled from the spec: the command indices of the absent diskio.h; the
index is the number in the command's name. -/
def CMD0 : Nat := 0

/-- Modelled from the spec: index of the interface-condition command (diskio.h). -/
def CMD8 : Nat := 8

/-- Modelled from the spec: index of the stop-transmission command (diskio.h). -/
def CMD12 : Nat := 12

/-- Modelled from the spec: index of the application-command marker (diskio.h). -/
def CMD55 : Nat := 55

def CS_HIGH (st : State) : State := spi_deselect st

def CS_LOW (st : State) : State := spi_select st

def xchg_spi (env : Env) (data : Nat) (st : State) : Nat × State := spi_tx env data st

def deselect (env : Env) (st : State) : State :=
  (xchg_spi env 0xFF (CS_HIGH st)).2

/-- The C construct `do body while (cond)`: `cond` is evaluated on the state
left by `body` and may itself change the state (as `--n` does).  The first
argument bounds the number of iterations. -/
def do_while {σ : Type} (body : σ → σ) (cond : σ → Bool × σ) : Nat → σ → Option σ
  | 0, _ => none
  | fuel + 1, s =>
    let c := cond (body s)
    if c.1 then do_while body cond fuel c.2 else some c.2

/-- Source `wait_ready`: the loop variable is the pair of `d` and the state. -/
def wait_ready (env : Env) (fuel : Nat) (wt : Nat) (st : State) : Option (Nat × State) :=
  match do_while (fun p => xchg_spi env 0xFF p.2)
      (fun p => (p.1 != 0xFF && Timer_Counter1Get p.2 != 0, p)) fuel
      (0, Timer_Counter1Set wt st) with
  | none => none
  | some (d, s) => some (if d = 0xFF then 1 else 0, s)

def select (env : Env) (fuel : Nat) (st : State) : Option (Nat × State) :=
  let s1 := CS_LOW st
  let s2 := (xchg_spi env 0xFF s1).2
  match wait_ready env fuel 500 s2 with
  | none => none
  | some (r, s3) => if r ≠ 0 then some (1, s3) else some (0, deselect env s3)

/-- Lines 528-553 of `send_cmd`: everything after the application-command
marker.  The response loop carries `n`, `res` and the state; `--n` on a BYTE
is `(n + 255) % 256`. -/
def send_cmd_body (env : Env) (fuel : Nat) (cmd arg : Nat) (st : State) : Option (Nat × State) :=
  match (if cmd ≠ CMD12 then select env fuel (deselect env st) else some (1, st)) with
  | none => none
  | some (ok, s1) =>
    if ok = 0 then some (0xFF, s1) else
    let s2 := (xchg_spi env (0x40 ||| cmd) s1).2
    let s3 := (xchg_spi env ((arg >>> 24) % 256) s2).2
    let s4 := (xchg_spi env ((arg >>> 16) % 256) s3).2
    let s5 := (xchg_spi env ((arg >>> 8) % 256) s4).2
    let s6 := (xchg_spi env (arg % 256) s5).2
    let n0 := 0x01
    let n1 := if cmd = CMD0 then 0x95 else n0
    let n2 := if cmd = CMD8 then 0x87 else n1
    let s7 := (xchg_spi env n2 s6).2
    let s8 := if cmd = CMD12 then (xchg_spi env 0xFF s7).2 else s7
    match do_while (fun p => (p.1, xchg_spi env 0xFF p.2.2))
        (fun p => if p.2.1 &&& 0x80 ≠ 0 then (((p.1 + 255) % 256) != 0, ((p.1 + 255) % 256, p.2))
                  else (false, p)) fuel (10, 0, s8) with
    | none => none
    | some (_, res, s) => some (res, s)

/-- Source `send_cmd`.  The recursive call for the application-command marker
consumes one unit of fuel. -/
def send_cmd (env : Env) : Nat → Nat → Nat → State → Option (Nat × State)
  | 0, _, _, _ => none
  | fuel + 1, cmd, arg, st =>
    if cmd &&& 0x80 ≠ 0 then
      match send_cmd env fuel CMD55 0 st with
      | none => none
      | some (res, s1) =>
        if res > 1 then some (res, s1)
        else send_cmd_body env fuel (cmd &&& 0x7F) arg s1
    else send_cmd_body env fuel cmd arg st

/-- Source `rcvr_spi_multi`: `for (i = 0; i < btr; i++) buff[i] = spi_rx();`.
The buffer is the memory at offsets from `buff`. -/
def rcvr_spi_multi (env : Env) (buff : Nat → Nat) (btr : Nat) (st : State) :
    (Nat → Nat) × State :=
  (List.range btr).foldl
    (fun acc i => let r := spi_rx env acc.2; (Function.update acc.1 i r.1, r.2)) (buff, st)

def rcvr_datablock (env : Env) (fuel : Nat) (buff : Nat → Nat) (btr : Nat) (st : State) :
    Option (Nat × (Nat → Nat) × State) :=
  match do_while (fun p => xchg_spi env 0xFF p.2)
      (fun p => (p.1 == 0xFF && Timer_Counter1Get p.2 != 0, p)) fuel
      (0, Timer_Counter1Set 200 st) with
  | none => none
  | some (token, s1) =>
    if token ≠ 0xFE then some (0, buff, s1) else
    let r := rcvr_spi_multi env buff btr s1
    let s3 := (xchg_spi env 0xFF r.2).2
    let s4 := (xchg_spi env 0xFF s3).2
    some (1, r.1, s4)

/-- The state after `m` consecutive filler exchanges `xchg_spi(0xFF)`. -/
def polls (env : Env) : Nat → State → State
  | 0, st => st
  | m + 1, st => (xchg_spi env 0xFF (polls env m st)).2

/-- The trace of `m` filler exchanges starting at exchange number `p`. -/
def fillers (env : Env) (p m : Nat) : List Event :=
  (List.range m).map (fun i => Event.xchg 0xFF (env.card (p + i) % 256))

/-- Timer interrupts that fire during the `m` exchanges starting at number `p`. -/
def elapsed (env : Env) (p : Nat) : Nat → Nat
  | 0 => 0
  | m + 1 => elapsed env p m + env.tick (p + m)

/-- The CRC byte of the command packet as the spec words it (§4.4 step 3). -/
def crc_byte (cmd : Nat) : Nat := if cmd = 0 then 0x95 else if cmd = 8 then 0x87 else 0x01

/-- Initial state: nothing exchanged yet, countdown idle, card deselected. -/
def st0 : State := { pos := 0, Timer1 := 0, cs := false, log := [] }

/-- The response loop of `send_cmd` stops after poll `m + 1`: the first `m`
bytes had bit 7 set, and either byte `m + 1` has bit 7 clear or it is the tenth. -/
def RespAt (env : Env) (p m : Nat) : Prop :=
  m < 10 ∧ (∀ i, i < m → env.card (p + i) % 256 &&& 0x80 ≠ 0) ∧
    (env.card (p + m) % 256 &&& 0x80 = 0 ∨ m = 9)

/-- The state `send_cmd` is in when its response loop starts, given the state
`s1` in which the packet starts (lines 535-546). -/
def packet_state (env : Env) (cmd arg : Nat) (s1 : State) : State :=
  let s2 := (xchg_spi env (0x40 ||| cmd) s1).2
  let s3 := (xchg_spi env ((arg >>> 24) % 256) s2).2
  let s4 := (xchg_spi env ((arg >>> 16) % 256) s3).2
  let s5 := (xchg_spi env ((arg >>> 8) % 256) s4).2
  let s6 := (xchg_spi env (arg % 256) s5).2
  let n0 := 0x01
  let n1 := if cmd = CMD0 then 0x95 else n0
  let n2 := if cmd = CMD8 then 0x87 else n1
  let s7 := (xchg_spi env n2 s6).2
  if cmd = CMD12 then (xchg_spi env 0xFF s7).2 else s7

/-- The six exchanges of a command packet that starts at exchange number `p`. -/
def packet_events (env : Env) (cmd arg p : Nat) : List Event :=
  [Event.xchg ((0x40 ||| cmd) % 256) (env.card p % 256),
   Event.xchg ((arg >>> 24) % 256) (env.card (p + 1) % 256),
   Event.xchg ((arg >>> 16) % 256) (env.card (p + 2) % 256),
   Event.xchg ((arg >>> 8) % 256) (env.card (p + 3) % 256),
   Event.xchg (arg % 256) (env.card (p + 4) % 256),
   Event.xchg (crc_byte cmd) (env.card (p + 5) % 256)]

/-- Number of bytes exchanged between the start of the packet and the first
response poll. -/
def packet_len (cmd : Nat) : Nat := if cmd = CMD12 then 7 else 6

/-- A card that answers 0x00 on the first three exchanges, 0x01 on exchange
number 10 and 0xFF otherwise; the timer fires during every odd exchange. -/
def envA : Env :=
  { card := fun k => if k < 3 then 0x00 else if k = 10 then 0x01 else 0xFF
    tick := fun k => k % 2 }

/-- The state in which `send_cmd` finds the card selected against `envA`. -/
def selA : State :=
  { pos := 4, Timer1 := 499, cs := true
    log := [Event.csHigh, Event.xchg 0xFF 0, Event.csLow, Event.xchg 0xFF 0,
            Event.xchg 0xFF 0, Event.xchg 0xFF 0xFF] }

/-- A card that never becomes ready (it answers 0x00 throughout) while 100
timer interrupts fire during every exchange. -/
def envB : Env := { card := fun _ => 0x00, tick := fun _ => 100 }

/-- The state `select` leaves after timing out against `envB`, called after `deselect`. -/
def selB : State :=
  { pos := 8, Timer1 := 0, cs := false
    log := [Event.csHigh, Event.xchg 0xFF 0, Event.csLow, Event.xchg 0xFF 0,
            Event.xchg 0xFF 0, Event.xchg 0xFF 0, Event.xchg 0xFF 0, Event.xchg 0xFF 0,
            Event.xchg 0xFF 0, Event.csHigh, Event.xchg 0xFF 0] }

/-- A card that sends 0xFF twice, then the start token 0xFE, then the number
of the exchange as data; the timer fires once per exchange. -/
def envC : Env :=
  { card := fun k => if k < 2 then 0xFF else if k = 2 then 0xFE else k
    tick := fun _ => 1 }

/-- A card that sends 0xFF forever; 50 timer interrupts fire per exchange. -/
def envD : Env := { card := fun _ => 0xFF, tick := fun _ => 50 }

/-! ### Block transmit -/

/-- Source `xmit_spi_multi`: `for (i = 0; i < btx; i++) spi_tx(buff[i]);`. -/
def xmit_spi_multi (env : Env) (buff : Nat → Nat) (btx : Nat) (st : State) : State :=
  (List.range btx).foldl (fun s i => (spi_tx env (buff i) s).2) st

def xmit_datablock (env : Env) (fuel : Nat) (buff : Nat → Nat) (token : Nat) (st : State) :
    Option (Nat × State) :=
  match wait_ready env fuel 500 st with
  | none => none
  | some (r, s1) =>
    if r = 0 then some (0, s1) else
    let s2 := (xchg_spi env token s1).2
    if token ≠ 0xFD then
      let s3 := xmit_spi_multi env buff 512 s2
      let s4 := (xchg_spi env 0xFF s3).2
      let s5 := (xchg_spi env 0xFF s4).2
      let resp := xchg_spi env 0xFF s5
      if resp.1 &&& 0x1F ≠ 0x05 then some (0, resp.2) else some (1, resp.2)
    else some (1, s2)

/-- The bytes the driver sent in a stretch of the trace, in order. -/
def sent_bytes : List Event → List Nat
  | [] => []
  | Event.xchg tx _ :: es => tx :: sent_bytes es
  | Event.csLow :: es => sent_bytes es
  | Event.csHigh :: es => sent_bytes es

/-- The exchanges in which `btx` bytes of `buff` are sent, starting at exchange number `p`. -/
def payload_events (env : Env) (buff : Nat → Nat) (p btx : Nat) : List Event :=
  (List.range btx).map (fun i => Event.xchg (buff i % 256) (env.card (p + i) % 256))

/-- A data packet on the wire as the spec words it (§4.5): the token, the 512
payload bytes, two filler bytes in place of the CRC. -/
def data_frame (p : Nat → Nat) (token : Nat) : List Nat :=
  token :: ((List.range 512).map p ++ [0xFF, 0xFF])

/-! ### Going idle (`SD_GoIdleState`, `SD_sendCommand`) -/

def SD_CS_Assert (st : State) : State := spi_select st

def SD_CS_Deassart (st : State) : State := spi_deselect st

def SPI_transmit (env : Env) (data : Nat) (st : State) : State := (spi_tx env data st).2

def SPI_receive (env : Env) (st : State) : Nat × State := spi_rx env st

/-- The response loop of `SD_sendCommand`:
`while ((response = SPI_receive()) == 0xff) if (retry++ > 0xfe) break;`
with `retry` an unsigned char.  The result is `response` and the state. -/
def SD_sendCommand_wait (env : Env) : Nat → Nat → State → Option (Nat × State)
  | 0, _, _ => none
  | fuel + 1, retry, st =>
    let r := SPI_receive env st
    if r.1 = 0xFF then
      if retry > 0xfe then some r
      else SD_sendCommand_wait env fuel ((retry + 1) % 256) r.2
    else some r

/-- Source `SD_sendCommand`; the arguments of `SPI_transmit` are converted to
`uint8_t`. -/
def SD_sendCommand (env : Env) (fuel : Nat) (cmd arg : Nat) (st : State) :
    Option (Nat × State) :=
  let s0 := SD_CS_Assert st
  let s1 := SPI_transmit env (cmd ||| 0x40) s0
  let s2 := SPI_transmit env ((arg >>> 24) % 256) s1
  let s3 := SPI_transmit env ((arg >>> 16) % 256) s2
  let s4 := SPI_transmit env ((arg >>> 8) % 256) s3
  let s5 := SPI_transmit env (arg % 256) s4
  let crc0 := 0x01
  let crc1 := if cmd = CMD0 then 0x95 else crc0
  let crc2 := if cmd = CMD8 then 0x87 else crc1
  let s6 := SPI_transmit env crc2 s5
  match SD_sendCommand_wait env fuel 0 s6 with
  | none => none
  | some (response, s7) =>
    let s8 := (SPI_receive env s7).2
    some (response, SD_CS_Deassart s8)

/-- The `for (i = 0; i < 10; i++) SPI_transmit(0xff);` of `SD_GoIdleState`. -/
def dummy_clocks (env : Env) (st : State) : State :=
  (List.range 10).foldl (fun s _ => SPI_transmit env 0xff s) st

/-- The `do ... while (response != 0x01)` loop of `SD_GoIdleState`; `retry` is
an unsigned char.  The result is the return value and the state. -/
def SD_GoIdleState_loop (env : Env) (fuel : Nat) : Nat → Nat → State → Option (Nat × State)
  | 0, _, _ => none
  | n + 1, retry, st =>
    let s1 := dummy_clocks env st
    match SD_sendCommand env fuel CMD0 0 s1 with
    | none => none
    | some (response, s2) =>
      let retry1 := (retry + 1) % 256
      if retry1 > 0xfe then some (0, s2)
      else if response ≠ 0x01 then SD_GoIdleState_loop env fuel n retry1 s2
      else some (1, SD_CS_Deassart s2)

/-- Source `SD_GoIdleState`.  `spi_setSpeed` and `Timer_delay_ms` (absent
spi.h, timer.h) put nothing on the bus and are left out. -/
def SD_GoIdleState (env : Env) (fuel : Nat) (st : State) : Option (Nat × State) :=
  SD_GoIdleState_loop env fuel fuel 0 (SD_CS_Assert st)

/-- One pass of the loop body of `SD_GoIdleState` up to the response: ten
dummy bytes, then CMD0. -/
def goidle_attempt (env : Env) (fuel : Nat) (st : State) : Option (Nat × State) :=
  SD_sendCommand env fuel CMD0 0 (dummy_clocks env st)

/-- The response and the state after attempt number `k + 1`, the attempts
being made one after the other from `st`. -/
def attempts (env : Env) (fuel : Nat) : Nat → State → Option (Nat × State)
  | 0, st => goidle_attempt env fuel st
  | k + 1, st =>
    match attempts env fuel k st with
    | none => none
    | some (_, s) => goidle_attempt env fuel s

/-- The response to attempt number `k + 1`. -/
def attempt_resp (env : Env) (fuel k : Nat) (st : State) : Option Nat :=
  (attempts env fuel k st).map (fun r => r.1)

/-- What one attempt that starts at exchange number `p` and sees `w` bytes
0xFF before its response puts on the bus: ten dummy bytes, chip-select low,
the CMD0 packet, `w + 1` receives, the extra receive, chip-select high. -/
def attempt_trace (env : Env) (p w : Nat) : List Event :=
  fillers env p 10 ++ [Event.csLow] ++ packet_events env CMD0 0 (p + 10) ++
    fillers env (p + 16) (w + 1) ++
    [Event.xchg 0xFF (env.card (p + 16 + (w + 1)) % 256), Event.csHigh]

/-! ### Countdown of the VFO application (main.c) -/

/-- Wrap of a 16-bit `int` (the MSP430 `int`). -/
def wrap_int (x : Int) : Int := (x + 32768) % 65536 - 32768

/-- Source `TimeDelay_Decrement` (main.c): `if (TimeDelay != 0x00) TimeDelay--;`
on `static volatile int TimeDelay`. -/
def TimeDelay_Decrement (t : Int) : Int := if t ≠ 0 then wrap_int (t - 1) else t

/-- The two countdown statements of `disk_timerproc`, on `Timer1` and `Timer2`. -/
def disk_timerproc_timers (t : Nat × Nat) : Nat × Nat :=
  (disk_timerproc t.1, disk_timerproc t.2)

/-! ### `SD_Init` and `SD_BuildDirectory` over FatFs -/

/-- A call into FatFs. -/
inductive FatCall where
  | f_mount : FatCall
  | f_open (name : List Nat) : FatCall
  | f_opendir : FatCall
  | f_readdir : FatCall
  | f_write : FatCall
  | f_close : FatCall
  deriving DecidableEq

/-- What FatFs (an external library) answers: the result code of each call,
for `f_readdir` also whether `fno.fname[0]` is 0, for `f_write` also
`BytesWritten`.  `readdir k` and `write k` answer the call number `k` of
their kind; `fopen` is given the file name as its character codes. -/
structure FatEnv where
  mount : Nat
  fopen : List Nat → Nat
  opendir : Nat
  readdir : Nat → Nat × Bool
  write : Nat → Nat × Nat
  close : Nat

/-- Modelled from the spec: `FR_OK` of the absent FatFs header; in
`SD_GetStringFromFatCode` the error codes are numbered from 1 and `FR_OK` is
the enumerator before them. -/
def FR_OK : Nat := 0

/-- Conversion `(int)` of a `uint32_t` on the MSP430, whose `int` has 16 bits. -/
def to_int (x : Nat) : Int := wrap_int (Int.ofNat (x % 65536))

/-- The `while (1)` loop of `SD_BuildDirectory` with what follows it.  `k` is
the number of directory entries handled so far (one `f_readdir` and one
`f_write` each), `total` is `totalBytes`, `calls` the FatFs calls made.  The
text of the line handed to `f_write` has no influence on the control flow and
is not modelled. -/
def SD_BuildDirectory_loop (fat : FatEnv) :
    Nat → Nat → Nat → List FatCall → Option (Int × List FatCall)
  | 0, _, _, _ => none
  | fuel + 1, k, total, calls =>
    let rd := fat.readdir k
    let calls1 := calls ++ [FatCall.f_readdir]
    if rd.1 ≠ FR_OK ∨ rd.2 = true then
      let calls2 := calls1 ++ [FatCall.f_close]
      if fat.close ≠ FR_OK then some (-1 * Int.ofNat fat.close, calls2)
      else some (to_int total, calls2)
    else
      let wr := fat.write k
      let calls2 := calls1 ++ [FatCall.f_write]
      if wr.1 ≠ FR_OK then some (-1 * Int.ofNat wr.1, calls2)
      else SD_BuildDirectory_loop fat fuel (k + 1) ((total + wr.2) % 2 ^ 32) calls2

/-- Source `SD_BuildDirectory`; `SD_ErrorHandler` does nothing. -/
def SD_BuildDirectory (fat : FatEnv) (fuel : Nat) (name : List Nat) (calls : List FatCall) :
    Option (Int × List FatCall) :=
  let res := fat.fopen name
  let calls1 := calls ++ [FatCall.f_open name]
  if res ≠ FR_OK then some (-1 * Int.ofNat res, calls1)
  else
    let calls2 := calls1 ++ [FatCall.f_opendir]
    if fat.opendir ≠ FR_OK then some (-1 * Int.ofNat fat.opendir, calls2)
    else SD_BuildDirectory_loop fat fuel 0 0 calls2

/-- The file name "DIR.TXT" as character codes. -/
def DIR_TXT : List Nat := [68, 73, 82, 46, 84, 88, 84]

/-- Source `SD_Init`.  The result is the return value, the bus state and the
FatFs calls made; the bus traffic FatFs itself causes is outside the model. -/
def SD_Init (env : Env) (fat : FatEnv) (fuel : Nat) (st : State) :
    Option (Int × State × List FatCall) :=
  match SD_GoIdleState env fuel st with
  | none => none
  | some (status, s1) =>
    if status ≠ 0x01 then some (-255, s1, [])
    else
      let res := fat.mount
      let calls := [FatCall.f_mount]
      if res ≠ FR_OK then some (-1 * Int.ofNat res, s1, calls)
      else
        match SD_BuildDirectory fat fuel DIR_TXT calls with
        | none => none
        | some (size, calls2) => some (size, s1, calls2)

/-! ### More concrete runs -/

/-- A card that is ready at once and answers the data block with 0x1D. -/
def envE : Env :=
  { card := fun k => if k = 516 then 0x1D else 0xFF
    tick := fun _ => 0 }

/-- The state after the ready wait of `xmit_datablock` against `envE`. -/
def readyE : State :=
  { pos := 1, Timer1 := 500, cs := false, log := [Event.xchg 0xFF 0xFF] }

/-- A card that answers the fifth CMD0 with 0x01 right after the packet and
every other exchange with 0x00. -/
def envF : Env :=
  { card := fun k => if k = 18 * 4 + 16 then 0x01 else 0x00
    tick := fun _ => 0 }

/-- A card that answers CMD0 number 255 with 0x01 right after the packet and
every other exchange with 0x00. -/
def envK : Env :=
  { card := fun k => if k = 18 * 254 + 16 then 0x01 else 0x00
    tick := fun _ => 0 }

/-- A card that answers every exchange with 0x05. -/
def envN : Env := { card := fun _ => 0x05, tick := fun _ => 0 }

/-- A card that answers the first CMD0 with 0x01 right after the packet. -/
def envI : Env :=
  { card := fun k => if k = 16 then 0x01 else 0xFF
    tick := fun _ => 0 }

/-- The state in which `SD_GoIdleState` returns against `envI`. -/
def idleI : State :=
  { pos := 18, Timer1 := 0, cs := false
    log := [Event.csLow,
            Event.xchg 0xFF 0xFF, Event.xchg 0xFF 0xFF, Event.xchg 0xFF 0xFF,
            Event.xchg 0xFF 0xFF, Event.xchg 0xFF 0xFF, Event.xchg 0xFF 0xFF,
            Event.xchg 0xFF 0xFF, Event.xchg 0xFF 0xFF, Event.xchg 0xFF 0xFF,
            Event.xchg 0xFF 0xFF,
            Event.csLow,
            Event.xchg 0x40 0xFF, Event.xchg 0 0xFF, Event.xchg 0 0xFF, Event.xchg 0 0xFF,
            Event.xchg 0 0xFF, Event.xchg 0x95 0xFF,
            Event.xchg 0xFF 0x01, Event.xchg 0xFF 0xFF,
            Event.csHigh, Event.csHigh] }

/-- FatFs that reports FR_DISK_ERR (1) on the second `f_readdir`, after one
entry was written with 30 bytes, and FR_OK everywhere else. -/
def fatX : FatEnv :=
  { mount := 0, fopen := fun _ => 0, opendir := 0
    readdir := fun k => if k = 0 then (0, false) else (1, false)
    write := fun _ => (0, 30)
    close := 0 }

/-! ### `dec32` -/

/-- Source `dec32`.  `str` is the static 16-byte buffer as memory at offsets
from its start (whatever an earlier call left in it), the pointer `s` is an
offset into it, `i` is the `unsigned long` argument.  The loop variable is
`(s, i, str)`; `*--s = c` moves `s` down by one and stores `c` there.  The
result is the returned pointer and the buffer. -/
def dec32 (fuel : Nat) (str : Int → Nat) (i : Nat) : Option (Int × (Int → Nat)) :=
  let s0 : Int := 16
  let s1 := s0 - 1
  let str1 := Function.update str s1 0
  match do_while
      (fun p : Int × Nat × (Int → Nat) =>
        (p.1 - 1, p.2.1 / 10, Function.update p.2.2 (p.1 - 1) (48 + p.2.1 % 10)))
      (fun p => (p.2.1 != 0, p)) fuel (s1, i, str1) with
  | none => none
  | some (s, _, str2) => some (s, str2)

/-- The number read from `n` decimal digit characters stored from offset `s`
on, most significant first; `acc` is the value read so far. -/
def read_decimal (mem : Int → Nat) : Int → Nat → Nat → Nat
  | _, 0, acc => acc
  | s, n + 1, acc => read_decimal mem (s + 1) n (acc * 10 + (mem s - 48))

/-- A card that sends 0xFF once, then 0x0B, then the start token 0xFE; the
timer fires once per exchange. -/
def envG : Env :=
  { card := fun k => if k = 0 then 0xFF else if k = 1 then 0x0B else 0xFE
    tick := fun _ => 1 }

/-! ## The countdown and the exchange primitive -/

theorem countdown_tick_iterate (k n : Nat) : Nat.iterate countdown_tick k n = n - k := by
  induction k generalizing n with
  | zero => simp
  | succ k ih =>
    rw [Function.iterate_succ_apply, ih]
    unfold countdown_tick
    split <;> omega

/-- On a counter that fits the `WORD` local, `k` ticks of `disk_timerproc`
take `k` off and stop at zero. -/
theorem disk_timerproc_iterate (k n : Nat) (hn : n < 65536) :
    Nat.iterate disk_timerproc k n = n - k := by
  induction k with
  | zero => simp
  | succ k ih =>
    rw [Function.iterate_succ_apply', ih]
    unfold disk_timerproc
    simp only
    split <;> omega

/-- Beyond the range of the `WORD` local the counter is cut down to 16 bits by
the first tick. -/
theorem disk_timerproc_beyond_word : disk_timerproc 70000 = 4463 := by decide

theorem xchg_spi_fst (env : Env) (data : Nat) (st : State) :
    (xchg_spi env data st).1 = env.card st.pos % 256 := rfl

theorem xchg_spi_snd (env : Env) (data : Nat) (st : State) :
    (xchg_spi env data st).2 =
      { pos := st.pos + 1
        Timer1 := st.Timer1 - env.tick st.pos
        cs := st.cs
        log := st.log ++ [Event.xchg (data % 256) (env.card st.pos % 256)] } := by
  simp [xchg_spi, spi_tx, countdown_tick_iterate]

theorem fillers_succ (env : Env) (p m : Nat) :
    fillers env p (m + 1) = fillers env p m ++ [Event.xchg 0xFF (env.card (p + m) % 256)] := by
  simp [fillers, List.range_succ]

theorem fillers_length (env : Env) (p m : Nat) : (fillers env p m).length = m := by
  simp [fillers]

theorem mem_fillers (env : Env) (p m : Nat) (e : Event) (h : e ∈ fillers env p m) :
    ∃ rx, e = Event.xchg 0xFF rx := by
  simp only [fillers, List.mem_map] at h
  obtain ⟨i, _, hi⟩ := h
  exact ⟨_, hi.symm⟩

theorem polls_eq (env : Env) (m : Nat) (st : State) :
    polls env m st =
      { pos := st.pos + m
        Timer1 := st.Timer1 - elapsed env st.pos m
        cs := st.cs
        log := st.log ++ fillers env st.pos m } := by
  induction m with
  | zero => simp [polls, elapsed, fillers]
  | succ m ih =>
    simp only [polls, ih, xchg_spi_snd, fillers_succ, elapsed]
    simp [Nat.add_assoc, Nat.sub_sub]

theorem polls_succ_left (env : Env) (m : Nat) (st : State) :
    polls env (m + 1) st = polls env m (xchg_spi env 0xFF st).2 := by
  induction m with
  | zero => rfl
  | succ m ih => rw [polls, ih]; rfl

theorem polls_add (env : Env) (a b : Nat) (st : State) :
    polls env (a + b) st = polls env b (polls env a st) := by
  induction b with
  | zero => rfl
  | succ b ih => rw [← Nat.add_assoc, polls, ih]; rfl

/-! ## Loops -/

theorem do_while_mono {σ : Type} (body : σ → σ) (cond : σ → Bool × σ) (fuel fuel2 : Nat)
    (s r : σ) (h : do_while body cond fuel s = some r) (hle : fuel ≤ fuel2) :
    do_while body cond fuel2 s = some r := by
  induction fuel generalizing fuel2 s with
  | zero => simp [do_while] at h
  | succ f ih =>
    obtain ⟨g, rfl⟩ : ∃ g, fuel2 = g + 1 := ⟨fuel2 - 1, by omega⟩
    simp only [do_while] at h ⊢
    split
    · rename_i hc
      rw [if_pos hc] at h
      exact ih g _ h (by omega)
    · rename_i hc
      rw [if_neg hc] at h
      exact h

/-- A polling loop `do d = xchg_spi(0xFF) while (c d state)` that continues
through its first `n` polls and stops at poll `n + 1`. -/
theorem poll_loop_stop (env : Env) (c : Nat → State → Bool) (n : Nat) :
    ∀ (fuel d0 : Nat) (st : State), n < fuel →
      (∀ j, j < n → c (env.card (st.pos + j) % 256) (polls env (j + 1) st) = true) →
      c (env.card (st.pos + n) % 256) (polls env (n + 1) st) = false →
      do_while (fun p => xchg_spi env 0xFF p.2) (fun p => (c p.1 p.2, p)) fuel (d0, st)
        = some (env.card (st.pos + n) % 256, polls env (n + 1) st) := by
  induction n with
  | zero =>
    intro fuel d0 st hf _ hstop
    obtain ⟨g, rfl⟩ : ∃ g, fuel = g + 1 := ⟨fuel - 1, by omega⟩
    have hstop2 : c (env.card st.pos % 256) (xchg_spi env 0xFF st).2 = false := by
      simpa [polls] using hstop
    simp [do_while, xchg_spi_fst, hstop2, polls]
    rfl
  | succ n ih =>
    intro fuel d0 st hf hcont hstop
    obtain ⟨g, rfl⟩ : ∃ g, fuel = g + 1 := ⟨fuel - 1, by omega⟩
    have h0 : c (env.card st.pos % 256) (xchg_spi env 0xFF st).2 = true := by
      simpa [polls] using hcont 0 (by omega)
    have hpos : (xchg_spi env 0xFF st).2.pos = st.pos + 1 := by rw [xchg_spi_snd]
    have key := ih g (env.card st.pos % 256) (xchg_spi env 0xFF st).2 (by omega)
      (by
        intro j hj
        have := hcont (j + 1) (by omega)
        rw [polls_succ_left] at this
        rw [hpos]
        rw [show st.pos + 1 + j = st.pos + (j + 1) by omega]
        exact this)
      (by
        rw [polls_succ_left] at hstop
        rw [hpos]
        rw [show st.pos + 1 + n = st.pos + (n + 1) by omega]
        exact hstop)
    rw [hpos, show st.pos + 1 + n = st.pos + (n + 1) by omega, ← polls_succ_left] at key
    simp only [do_while, xchg_spi_fst, h0, if_true]
    exact key

/-- Every result of a polling loop is reached after some number of polls, all
but the last of which asked for another round. -/
theorem poll_loop_inv (env : Env) (c : Nat → State → Bool) (fuel : Nat) :
    ∀ (d0 : Nat) (st : State) (r : Nat × State),
      do_while (fun p => xchg_spi env 0xFF p.2) (fun p => (c p.1 p.2, p)) fuel (d0, st) = some r →
      ∃ n, n < fuel ∧
        (∀ j, j < n → c (env.card (st.pos + j) % 256) (polls env (j + 1) st) = true) ∧
        c (env.card (st.pos + n) % 256) (polls env (n + 1) st) = false ∧
        r = (env.card (st.pos + n) % 256, polls env (n + 1) st) := by
  induction fuel with
  | zero => intro d0 st r h; simp [do_while] at h
  | succ f ih =>
    intro d0 st r h
    simp only [do_while, xchg_spi_fst] at h
    by_cases hc : c (env.card st.pos % 256) (xchg_spi env 0xFF st).2 = true
    · rw [if_pos hc] at h
      obtain ⟨n, hn, hcont, hstop, hr⟩ :=
        ih (xchg_spi env 0xFF st).1 (xchg_spi env 0xFF st).2 r h
      have hpos : (xchg_spi env 0xFF st).2.pos = st.pos + 1 := by rw [xchg_spi_snd]
      rw [hpos] at hcont hstop hr
      refine ⟨n + 1, by omega, ?_, ?_, ?_⟩
      · intro j hj
        cases j with
        | zero => simpa [polls] using hc
        | succ j =>
          have := hcont j (by omega)
          rw [polls_succ_left, show st.pos + (j + 1) = st.pos + 1 + j by omega]
          exact this
      · rw [polls_succ_left, show st.pos + (n + 1) = st.pos + 1 + n by omega]
        exact hstop
      · rw [polls_succ_left, show st.pos + (n + 1) = st.pos + 1 + n by omega]
        exact hr
    · rw [if_neg hc] at h
      refine ⟨0, by omega, by intro j hj; omega, ?_, ?_⟩
      · simpa [polls] using hc
      · simp only [Option.some.injEq] at h
        rw [← h]
        rfl

/-! ## `wait_ready` and `select` -/

theorem wait_ready_stop (env : Env) (n fuel wt : Nat) (st : State) (hf : n < fuel)
    (hcont : ∀ j, j < n → env.card (st.pos + j) % 256 ≠ 0xFF ∧ elapsed env st.pos (j + 1) < wt)
    (hstop : env.card (st.pos + n) % 256 = 0xFF ∨ wt ≤ elapsed env st.pos (n + 1)) :
    wait_ready env fuel wt st =
      some (if env.card (st.pos + n) % 256 = 0xFF then 1 else 0,
            polls env (n + 1) (Timer_Counter1Set wt st)) := by
  have key := poll_loop_stop env (fun d s => d != 0xFF && Timer_Counter1Get s != 0) n fuel 0
    (Timer_Counter1Set wt st) hf
    (by
      intro j hj
      obtain ⟨h1, h2⟩ := hcont j hj
      simp only [polls_eq, Timer_Counter1Get, Timer_Counter1Set, Bool.and_eq_true, bne_iff_ne]
      exact ⟨h1, by omega⟩)
    (by
      simp only [polls_eq, Timer_Counter1Get, Timer_Counter1Set]
      rcases hstop with h | h
      · simp [h]
      · have : wt - elapsed env st.pos (n + 1) = 0 := by omega
        simp [this])
  unfold wait_ready
  rw [key]
  rfl

theorem wait_ready_inv (env : Env) (fuel wt : Nat) (st : State) (r : Nat) (s : State)
    (h : wait_ready env fuel wt st = some (r, s)) :
    ∃ n, n < fuel ∧
      (∀ j, j < n → env.card (st.pos + j) % 256 ≠ 0xFF ∧ elapsed env st.pos (j + 1) < wt) ∧
      (env.card (st.pos + n) % 256 = 0xFF ∨ wt ≤ elapsed env st.pos (n + 1)) ∧
      r = (if env.card (st.pos + n) % 256 = 0xFF then 1 else 0) ∧
      s = polls env (n + 1) (Timer_Counter1Set wt st) := by
  unfold wait_ready at h
  split at h
  · simp at h
  · rename_i d s2 hdw
    obtain ⟨n, hn, hcont, hstop, hr⟩ :=
      poll_loop_inv env (fun d s => d != 0xFF && Timer_Counter1Get s != 0) fuel 0
        (Timer_Counter1Set wt st) (d, s2) hdw
    simp only [Option.some.injEq, Prod.mk.injEq] at h
    simp only [Prod.mk.injEq] at hr
    obtain ⟨hd, hs2⟩ := hr
    refine ⟨n, hn, ?_, ?_, ?_, ?_⟩
    · intro j hj
      have := hcont j hj
      simp only [polls_eq, Timer_Counter1Get, Timer_Counter1Set, Bool.and_eq_true,
        bne_iff_ne] at this
      exact ⟨this.1, by omega⟩
    · simp only [polls_eq, Timer_Counter1Get, Timer_Counter1Set, Bool.and_eq_false_iff,
        bne_eq_false_iff_eq, beq_iff_eq] at hstop
      rcases hstop with h1 | h1
      · exact Or.inl h1
      · exact Or.inr (by omega)
    · rw [← h.1, hd]
      rfl
    · rw [← h.2, hs2]

theorem wait_ready_mono (env : Env) (fuel fuel2 wt : Nat) (st : State) (x : Nat × State)
    (h : wait_ready env fuel wt st = some x) (hle : fuel ≤ fuel2) :
    wait_ready env fuel2 wt st = some x := by
  obtain ⟨r, s⟩ := x
  obtain ⟨n, hn, hcont, hstop, hr, hs⟩ := wait_ready_inv env fuel wt st r s h
  rw [wait_ready_stop env n fuel2 wt st (by omega) hcont hstop, hr, hs]

theorem select_mono (env : Env) (fuel fuel2 : Nat) (st : State) (x : Nat × State)
    (h : select env fuel st = some x) (hle : fuel ≤ fuel2) :
    select env fuel2 st = some x := by
  unfold select at h ⊢
  simp only at h ⊢
  split at h
  · simp at h
  · rename_i r s3 hw
    rw [wait_ready_mono env fuel fuel2 500 _ _ hw hle]
    exact h

theorem deselect_eq (env : Env) (st : State) :
    deselect env st =
      { pos := st.pos + 1
        Timer1 := st.Timer1 - env.tick st.pos
        cs := false
        log := st.log ++ [Event.csHigh, Event.xchg 0xFF (env.card st.pos % 256)] } := by
  simp [deselect, CS_HIGH, spi_deselect, xchg_spi_snd]

/-- What `select` does when its ready wait stops at poll `n + 1`. -/
theorem select_stop (env : Env) (n fuel : Nat) (st : State) (hf : n < fuel)
    (hcont : ∀ j, j < n →
      env.card (st.pos + 1 + j) % 256 ≠ 0xFF ∧ elapsed env (st.pos + 1) (j + 1) < 500)
    (hstop : env.card (st.pos + 1 + n) % 256 = 0xFF ∨ 500 ≤ elapsed env (st.pos + 1) (n + 1)) :
    select env fuel st =
      if env.card (st.pos + 1 + n) % 256 = 0xFF then
        some (1, { pos := st.pos + 1 + (n + 1)
                   Timer1 := 500 - elapsed env (st.pos + 1) (n + 1)
                   cs := true
                   log := st.log ++ [Event.csLow, Event.xchg 0xFF (env.card st.pos % 256)]
                            ++ fillers env (st.pos + 1) (n + 1) })
      else
        some (0, { pos := st.pos + 1 + (n + 1) + 1
                   Timer1 := 500 - elapsed env (st.pos + 1) (n + 1)
                              - env.tick (st.pos + 1 + (n + 1))
                   cs := false
                   log := st.log ++ [Event.csLow, Event.xchg 0xFF (env.card st.pos % 256)]
                            ++ fillers env (st.pos + 1) (n + 1)
                            ++ [Event.csHigh,
                                Event.xchg 0xFF (env.card (st.pos + 1 + (n + 1)) % 256)] }) := by
  have hs2 : (xchg_spi env 0xFF (CS_LOW st)).2 =
      { pos := st.pos + 1
        Timer1 := st.Timer1 - env.tick st.pos
        cs := true
        log := st.log ++ [Event.csLow, Event.xchg 0xFF (env.card st.pos % 256)] } := by
    simp [CS_LOW, spi_select, xchg_spi_snd]
  have hw := wait_ready_stop env n fuel 500 (xchg_spi env 0xFF (CS_LOW st)).2 hf
    (by rw [hs2]; exact hcont) (by rw [hs2]; exact hstop)
  unfold select
  simp only [hw]
  rw [hs2]
  by_cases hc : env.card (st.pos + 1 + n) % 256 = 0xFF
  · simp [hc, polls_eq, Timer_Counter1Set]
  · simp [hc, polls_eq, Timer_Counter1Set, deselect_eq]

theorem select_inv (env : Env) (fuel : Nat) (st : State) (r : Nat) (s : State)
    (h : select env fuel st = some (r, s)) :
    ∃ n, n < fuel ∧
      (∀ j, j < n →
        env.card (st.pos + 1 + j) % 256 ≠ 0xFF ∧ elapsed env (st.pos + 1) (j + 1) < 500) ∧
      (env.card (st.pos + 1 + n) % 256 = 0xFF ∨ 500 ≤ elapsed env (st.pos + 1) (n + 1)) := by
  unfold select at h
  simp only at h
  split at h
  · simp at h
  · rename_i w sw hw
    obtain ⟨n, hn, hcont, hstop, _, _⟩ := wait_ready_inv env fuel 500 _ w sw hw
    have hp : (xchg_spi env 0xFF (CS_LOW st)).2.pos = st.pos + 1 := by
      simp [CS_LOW, spi_select, xchg_spi_snd]
    rw [hp] at hcont hstop
    exact ⟨n, hn, hcont, hstop⟩

/-! ## The command packet and the response loop of `send_cmd` -/

theorem crc_value (cmd : Nat) :
    (if cmd = CMD8 then 0x87 else if cmd = CMD0 then 0x95 else 0x01) % 256 = crc_byte cmd := by
  unfold crc_byte CMD8 CMD0
  by_cases h8 : cmd = 8
  · subst h8; simp
  · by_cases h0 : cmd = 0
    · subst h0; simp
    · simp [h8, h0]

theorem packet_state_pos (env : Env) (cmd arg : Nat) (s1 : State) :
    (packet_state env cmd arg s1).pos = s1.pos + packet_len cmd := by
  unfold packet_state packet_len
  by_cases h : cmd = CMD12 <;> simp [h, xchg_spi_snd]

theorem packet_state_cs (env : Env) (cmd arg : Nat) (s1 : State) :
    (packet_state env cmd arg s1).cs = s1.cs := by
  unfold packet_state
  by_cases h : cmd = CMD12 <;> simp [h, xchg_spi_snd]

theorem packet_state_log (env : Env) (cmd arg : Nat) (s1 : State) :
    (packet_state env cmd arg s1).log =
      s1.log ++ packet_events env cmd arg s1.pos ++
        (if cmd = CMD12 then [Event.xchg 0xFF (env.card (s1.pos + 6) % 256)] else []) := by
  have hc := crc_value cmd
  unfold packet_state packet_events
  by_cases h : cmd = CMD12
  · simp only [h, if_true, xchg_spi_snd] at hc ⊢
    simp [← hc, Nat.add_assoc]
  · simp only [h, if_false, xchg_spi_snd] at hc ⊢
    simp [← hc, Nat.add_assoc]

theorem send_cmd_body_eq (env : Env) (fuel cmd arg : Nat) (st : State) :
    send_cmd_body env fuel cmd arg st =
      match (if cmd ≠ CMD12 then select env fuel (deselect env st) else some (1, st)) with
      | none => none
      | some (ok, s1) =>
        if ok = 0 then some (0xFF, s1) else
        match do_while (fun p => (p.1, xchg_spi env 0xFF p.2.2))
            (fun p => if p.2.1 &&& 0x80 ≠ 0 then
                        (((p.1 + 255) % 256) != 0, ((p.1 + 255) % 256, p.2))
                      else (false, p)) fuel (10, 0, packet_state env cmd arg s1) with
        | none => none
        | some (_, res, s) => some (res, s) := rfl

theorem do_while_succ {σ : Type} (body : σ → σ) (cond : σ → Bool × σ) (fuel : Nat) (s : σ) :
    do_while body cond (fuel + 1) s =
      if (cond (body s)).1 then do_while body cond fuel (cond (body s)).2
      else some (cond (body s)).2 := rfl

/-- One round of the response loop when the received byte has bit 7 clear. -/
theorem resp_round_clear (env : Env) (g n r0 : Nat) (s : State)
    (hb : env.card s.pos % 256 &&& 0x80 = 0) :
    do_while (fun p : Nat × Nat × State => (p.1, xchg_spi env 0xFF p.2.2))
        (fun p => if p.2.1 &&& 0x80 ≠ 0 then
                    (((p.1 + 255) % 256) != 0, ((p.1 + 255) % 256, p.2))
                  else (false, p)) (g + 1) (n, r0, s)
      = some (n, env.card s.pos % 256, (xchg_spi env 0xFF s).2) := by
  rw [do_while_succ]
  dsimp only
  rw [xchg_spi_fst]
  simp only [hb, ne_eq, not_true_eq_false, if_false, Bool.false_eq_true]
  rfl

/-- One round of the response loop when the received byte has bit 7 set. -/
theorem resp_round_set (env : Env) (g n r0 : Nat) (s : State)
    (hb : env.card s.pos % 256 &&& 0x80 ≠ 0) :
    do_while (fun p : Nat × Nat × State => (p.1, xchg_spi env 0xFF p.2.2))
        (fun p => if p.2.1 &&& 0x80 ≠ 0 then
                    (((p.1 + 255) % 256) != 0, ((p.1 + 255) % 256, p.2))
                  else (false, p)) (g + 1) (n, r0, s)
      = if (n + 255) % 256 ≠ 0 then
          do_while (fun p : Nat × Nat × State => (p.1, xchg_spi env 0xFF p.2.2))
            (fun p => if p.2.1 &&& 0x80 ≠ 0 then
                        (((p.1 + 255) % 256) != 0, ((p.1 + 255) % 256, p.2))
                      else (false, p)) g
            ((n + 255) % 256, env.card s.pos % 256, (xchg_spi env 0xFF s).2)
        else some ((n + 255) % 256, env.card s.pos % 256, (xchg_spi env 0xFF s).2) := by
  rw [do_while_succ]
  dsimp only
  rw [xchg_spi_fst, if_pos hb]
  dsimp only
  by_cases hn : (n + 255) % 256 = 0
  · rw [if_neg (by simp [hn]), if_neg (by simp [hn])]
    rfl
  · rw [if_pos (by simp [hn]), if_pos (by simp [hn])]
    rfl

/-- The response loop started with counter `k + 1`. -/
theorem resp_loop (env : Env) (k : Nat) :
    ∀ (fuel r0 : Nat) (s : State), k < 256 → k < fuel →
      ∃ m k2, m ≤ k ∧
        (∀ i, i < m → env.card (s.pos + i) % 256 &&& 0x80 ≠ 0) ∧
        (env.card (s.pos + m) % 256 &&& 0x80 = 0 ∨ m = k) ∧
        do_while (fun p : Nat × Nat × State => (p.1, xchg_spi env 0xFF p.2.2))
            (fun p => if p.2.1 &&& 0x80 ≠ 0 then
                        (((p.1 + 255) % 256) != 0, ((p.1 + 255) % 256, p.2))
                      else (false, p)) fuel (k + 1, r0, s)
          = some (k2, env.card (s.pos + m) % 256, polls env (m + 1) s) := by
  induction k with
  | zero =>
    intro fuel r0 s _ hf
    obtain ⟨g, rfl⟩ : ∃ g, fuel = g + 1 := ⟨fuel - 1, by omega⟩
    by_cases hb : env.card s.pos % 256 &&& 0x80 = 0
    · refine ⟨0, 1, le_refl _, by intro i hi; omega, Or.inr rfl, ?_⟩
      rw [resp_round_clear env g _ r0 s hb]
      rfl
    · refine ⟨0, 0, le_refl _, by intro i hi; omega, Or.inr rfl, ?_⟩
      rw [resp_round_set env g _ r0 s hb, if_neg (by norm_num)]
      rfl
  | succ k ih =>
    intro fuel r0 s hk hf
    obtain ⟨g, rfl⟩ : ∃ g, fuel = g + 1 := ⟨fuel - 1, by omega⟩
    by_cases hb : env.card s.pos % 256 &&& 0x80 = 0
    · refine ⟨0, k + 2, by omega, by intro i hi; omega, Or.inl hb, ?_⟩
      rw [resp_round_clear env g _ r0 s hb]
      rfl
    · obtain ⟨m, k2, hm, hset, hlast, hrun⟩ :=
        ih g (env.card s.pos % 256) (xchg_spi env 0xFF s).2 (by omega) (by omega)
      have hpos : (xchg_spi env 0xFF s).2.pos = s.pos + 1 := by rw [xchg_spi_snd]
      rw [hpos] at hset hlast hrun
      have hdec : (k + 1 + 1 + 255) % 256 = k + 1 := by omega
      refine ⟨m + 1, k2, by omega, ?_, ?_, ?_⟩
      · intro i hi
        cases i with
        | zero => exact hb
        | succ i =>
          have := hset i (by omega)
          rw [show s.pos + (i + 1) = s.pos + 1 + i by omega]
          exact this
      · rw [show s.pos + (m + 1) = s.pos + 1 + m by omega]
        rcases hlast with h | h
        · exact Or.inl h
        · exact Or.inr (by omega)
      · rw [resp_round_set env g _ r0 s hb, hdec, if_pos (by omega), hrun,
          show s.pos + (m + 1) = s.pos + 1 + m by omega, polls_succ_left env (m + 1) s]

/-- Once the packet may start in state `s1`, `send_cmd_body` completes. -/
theorem send_cmd_body_ok (env : Env) (fuel cmd arg ok : Nat) (st s1 : State)
    (hfuel : 10 ≤ fuel) (hok : ok ≠ 0)
    (hsel : (if cmd ≠ CMD12 then select env fuel (deselect env st) else some (1, st))
      = some (ok, s1)) :
    ∃ m, RespAt env (s1.pos + packet_len cmd) m ∧
      send_cmd_body env fuel cmd arg st =
        some (env.card (s1.pos + packet_len cmd + m) % 256,
              polls env (m + 1) (packet_state env cmd arg s1)) := by
  obtain ⟨m, k2, hm, hset, hlast, hrun⟩ :=
    resp_loop env 9 fuel 0 (packet_state env cmd arg s1) (by omega) (by omega)
  rw [packet_state_pos] at hset hlast hrun
  refine ⟨m, ⟨by omega, hset, hlast⟩, ?_⟩
  rw [send_cmd_body_eq, hsel]
  simp only [hok, if_false]
  rw [hrun]

theorem send_cmd_body_inv (env : Env) (fuel cmd arg res : Nat) (st st2 : State)
    (h : send_cmd_body env fuel cmd arg st = some (res, st2)) :
    ∃ ok s1, (if cmd ≠ CMD12 then select env fuel (deselect env st) else some (1, st))
        = some (ok, s1) ∧
      (ok = 0 → res = 0xFF ∧ st2 = s1) ∧
      (ok ≠ 0 → ∃ m, RespAt env (s1.pos + packet_len cmd) m ∧
        res = env.card (s1.pos + packet_len cmd + m) % 256 ∧
        st2 = polls env (m + 1) (packet_state env cmd arg s1)) := by
  rw [send_cmd_body_eq] at h
  split at h
  · simp at h
  · rename_i ok s1 hsel
    refine ⟨ok, s1, hsel, ?_, ?_⟩
    · intro h0
      simp only [h0, if_true, Option.some.injEq, Prod.mk.injEq] at h
      exact ⟨h.1.symm, h.2.symm⟩
    · intro hok
      simp only [hok, if_false] at h
      split at h
      · simp at h
      · rename_i k3 r3 s3 hdw
        simp only [Option.some.injEq, Prod.mk.injEq] at h
        obtain ⟨m, k2, hm, hset, hlast, hrun⟩ :=
          resp_loop env 9 (max fuel 10) 0 (packet_state env cmd arg s1) (by omega)
            (by omega)
        have hmono := do_while_mono _ _ fuel (max fuel 10) _ _ hdw (le_max_left _ _)
        rw [hrun] at hmono
        simp only [Option.some.injEq, Prod.mk.injEq] at hmono
        rw [packet_state_pos] at hset hlast hmono
        refine ⟨m, ⟨by omega, hset, hlast⟩, ?_, ?_⟩
        · rw [← h.1, ← hmono.2.1]
        · rw [← h.2, ← hmono.2.2]

theorem send_cmd_plain (env : Env) (fuel cmd arg : Nat) (st : State) (h : cmd &&& 0x80 = 0) :
    send_cmd env (fuel + 1) cmd arg st = send_cmd_body env fuel cmd arg st := by
  simp [send_cmd, h]

theorem land_80_of_lt (cmd : Nat) (h : cmd < 0x80) : cmd &&& 0x80 = 0 := by
  interval_cases cmd <;> rfl

theorem lor_40_mod (cmd : Nat) (h : cmd < 0x80) : (0x40 ||| cmd) % 256 = 0x40 ||| cmd := by
  interval_cases cmd <;> rfl

/-! ## Block receive -/

theorem rcvr_spi_multi_eq (env : Env) (buff : Nat → Nat) (btr : Nat) (st : State) :
    rcvr_spi_multi env buff btr st =
      (fun i => if i < btr then env.card (st.pos + i) % 256 else buff i, polls env btr st) := by
  induction btr with
  | zero => simp [rcvr_spi_multi, polls]
  | succ b ih =>
    unfold rcvr_spi_multi at ih ⊢
    rw [List.range_succ, List.foldl_append, ih]
    simp only [List.foldl_cons, List.foldl_nil, spi_rx]
    refine Prod.ext ?_ ?_
    · funext i
      simp only [Function.update_apply]
      have hp : (polls env b st).pos = st.pos + b := by rw [polls_eq]
      by_cases hi : i = b
      · subst hi
        simp [hp, spi_tx]
      · by_cases hlt : i < b
        · simp [hi, hlt, Nat.lt_succ_of_lt hlt]
        · have : ¬ i < b + 1 := by omega
          simp [hi, hlt, this]
    · rfl

/-- The complete run of `send_cmd_body` once the packet may start in `s1`. -/
theorem send_cmd_body_run (env : Env) (fuel cmd arg : Nat) (st s1 : State) (hfuel : 10 ≤ fuel)
    (hsel : cmd = CMD12 ∧ s1 = st ∨
      cmd ≠ CMD12 ∧ select env fuel (deselect env st) = some (1, s1)) :
    ∃ m st2, RespAt env (s1.pos + packet_len cmd) m ∧
      send_cmd_body env fuel cmd arg st =
        some (env.card (s1.pos + packet_len cmd + m) % 256, st2) ∧
      st2.pos = s1.pos + packet_len cmd + (m + 1) ∧
      st2.cs = s1.cs ∧
      st2.log = s1.log ++ packet_events env cmd arg s1.pos ++
        (if cmd = CMD12 then [Event.xchg 0xFF (env.card (s1.pos + 6) % 256)] else []) ++
        fillers env (s1.pos + packet_len cmd) (m + 1) := by
  have hsel2 : (if cmd ≠ CMD12 then select env fuel (deselect env st) else some (1, st))
      = some (1, s1) := by
    rcases hsel with ⟨h1, h2⟩ | ⟨h1, h2⟩
    · simp [h1, h2]
    · simp [h1, h2]
  obtain ⟨m, hm, hrun⟩ := send_cmd_body_ok env fuel cmd arg 1 st s1 hfuel (by omega) hsel2
  refine ⟨m, _, hm, hrun, ?_, ?_, ?_⟩
  · rw [polls_eq, packet_state_pos]
  · rw [polls_eq, packet_state_cs]
  · rw [polls_eq, packet_state_log, packet_state_pos]

theorem fillers_succ_left (env : Env) (p m : Nat) :
    fillers env p (m + 1) = Event.xchg 0xFF (env.card p % 256) :: fillers env (p + 1) m := by
  simp only [fillers, List.range_succ_eq_map, List.map_cons, List.map_map, Nat.add_zero]
  congr 1
  apply List.map_congr_left
  intro i _
  simp only [Function.comp, Nat.succ_eq_add_one]
  rw [show p + (i + 1) = p + 1 + i by omega]

/-- The trace and the chip-select line that `select` leaves behind. -/
theorem select_log (env : Env) (fuel : Nat) (st : State) (r : Nat) (s : State)
    (h : select env fuel st = some (r, s)) :
    ∃ n, (r = 1 ∧ s.cs = true ∧
          s.log = st.log ++ [Event.csLow, Event.xchg 0xFF (env.card st.pos % 256)]
                    ++ fillers env (st.pos + 1) (n + 1)) ∨
         (r = 0 ∧ s.cs = false ∧
          s.log = st.log ++ [Event.csLow, Event.xchg 0xFF (env.card st.pos % 256)]
                    ++ fillers env (st.pos + 1) (n + 1)
                    ++ [Event.csHigh, Event.xchg 0xFF (env.card (st.pos + 1 + (n + 1)) % 256)]) := by
  obtain ⟨n, hn, hcont, hstop⟩ := select_inv env fuel st r s h
  have hs := select_stop env n fuel st hn hcont hstop
  rw [h] at hs
  refine ⟨n, ?_⟩
  by_cases hc : env.card (st.pos + 1 + n) % 256 = 0xFF
  · rw [if_pos hc] at hs
    simp only [Option.some.injEq, Prod.mk.injEq] at hs
    left
    rw [hs.1, hs.2]
    exact ⟨rfl, rfl, rfl⟩
  · rw [if_neg hc] at hs
    simp only [Option.some.injEq, Prod.mk.injEq] at hs
    right
    rw [hs.1, hs.2]
    exact ⟨rfl, rfl, rfl⟩

/-- Every returning run of `send_cmd_body` for a command other than CMD12
starts with deselect, chip-select low, the dummy clock and a ready-wait poll. -/
theorem send_cmd_body_starts (env : Env) (fuel cmd arg res : Nat) (st st2 : State)
    (h12 : cmd ≠ CMD12) (h : send_cmd_body env fuel cmd arg st = some (res, st2)) :
    ∃ tail, st2.log = st.log ++
      [Event.csHigh, Event.xchg 0xFF (env.card st.pos % 256),
       Event.csLow, Event.xchg 0xFF (env.card (st.pos + 1) % 256),
       Event.xchg 0xFF (env.card (st.pos + 2) % 256)] ++ tail := by
  obtain ⟨ok, s1, hsel, h0, h1⟩ := send_cmd_body_inv env fuel cmd arg res st st2 h
  rw [if_pos h12] at hsel
  obtain ⟨n, hlog⟩ := select_log env fuel _ ok s1 hsel
  have hdp : (deselect env st).pos = st.pos + 1 := by rw [deselect_eq]
  have hdl : (deselect env st).log =
      st.log ++ [Event.csHigh, Event.xchg 0xFF (env.card st.pos % 256)] := by rw [deselect_eq]
  rw [hdp, hdl, fillers_succ_left] at hlog
  rcases hlog with ⟨hr, _, hl⟩ | ⟨hr, _, hl⟩
  · obtain ⟨m, _, _, hst2⟩ := h1 (by omega)
    refine ⟨fillers env (st.pos + 1 + 1 + 1) n ++ packet_events env cmd arg s1.pos ++
      (if cmd = CMD12 then [Event.xchg 0xFF (env.card (s1.pos + 6) % 256)] else []) ++
      fillers env (s1.pos + packet_len cmd) (m + 1), ?_⟩
    rw [hst2, polls_eq, packet_state_log, packet_state_pos, hl]
    simp [List.append_assoc]
  · obtain ⟨_, hst2⟩ := h0 hr
    refine ⟨fillers env (st.pos + 1 + 1 + 1) n ++
      [Event.csHigh, Event.xchg 0xFF (env.card (st.pos + 1 + 1 + (n + 1)) % 256)], ?_⟩
    rw [hst2, hl]
    simp [List.append_assoc]

/-- A returning run of `send_cmd_body` only appends to the trace. -/
theorem send_cmd_body_log_mono (env : Env) (fuel cmd arg res : Nat) (st st2 : State)
    (h : send_cmd_body env fuel cmd arg st = some (res, st2)) :
    ∃ tail, st2.log = st.log ++ tail := by
  by_cases h12 : cmd = CMD12
  · obtain ⟨ok, s1, hsel, h0, h1⟩ := send_cmd_body_inv env fuel cmd arg res st st2 h
    rw [if_neg (by simpa using h12)] at hsel
    simp only [Option.some.injEq, Prod.mk.injEq] at hsel
    obtain ⟨m, _, _, hst2⟩ := h1 (by omega)
    rw [hst2, polls_eq, packet_state_log, ← hsel.2]
    simp only [List.append_assoc]
    exact ⟨_, rfl⟩
  · obtain ⟨tail, ht⟩ := send_cmd_body_starts env fuel cmd arg res st st2 h12 h
    rw [ht, List.append_assoc]
    exact ⟨_, rfl⟩

theorem select_ret (env : Env) (fuel : Nat) (st : State) (r : Nat) (s : State)
    (h : select env fuel st = some (r, s)) : r = 0 ∨ r = 1 := by
  obtain ⟨n, hn⟩ := select_log env fuel st r s h
  rcases hn with ⟨hr, _⟩ | ⟨hr, _⟩
  · exact Or.inr hr
  · exact Or.inl hr

theorem send_cmd_body_mono (env : Env) (fuel fuel2 cmd arg : Nat) (st : State)
    (x : Nat × State) (h : send_cmd_body env fuel cmd arg st = some x) (hle : fuel ≤ fuel2)
    (h10 : 10 ≤ fuel2) :
    send_cmd_body env fuel2 cmd arg st = some x := by
  obtain ⟨res, st2⟩ := x
  obtain ⟨ok, s1, hsel, h0, h1⟩ := send_cmd_body_inv env fuel cmd arg res st st2 h
  have hsel2 : (if cmd ≠ CMD12 then select env fuel2 (deselect env st) else some (1, st))
      = some (ok, s1) := by
    by_cases h12 : cmd = CMD12
    · rw [if_neg (by simpa using h12)] at hsel ⊢
      exact hsel
    · rw [if_pos h12] at hsel ⊢
      exact select_mono env fuel fuel2 _ _ hsel hle
  by_cases hok : ok = 0
  · obtain ⟨hr, hs⟩ := h0 hok
    rw [send_cmd_body_eq, hsel2, hr, hs]
    simp [hok]
  · obtain ⟨m, hm, hr, hs⟩ := h1 hok
    obtain ⟨m2, hm2, hrun⟩ := send_cmd_body_ok env fuel2 cmd arg ok st s1 h10 hok hsel2
    have hmm : m2 = m := by
      obtain ⟨a1, a2, a3⟩ := hm
      obtain ⟨b1, b2, b3⟩ := hm2
      rcases Nat.lt_trichotomy m2 m with hlt | heq | hgt
      · exfalso
        rcases b3 with hb | hb
        · exact a2 m2 hlt hb
        · omega
      · exact heq
      · exfalso
        rcases a3 with ha | ha
        · exact b2 m hgt ha
        · omega
    rw [hrun, hmm, hr, hs]

theorem send_cmd_body_timeout (env : Env) (fuel cmd arg : Nat) (st s1 : State)
    (h12 : cmd ≠ CMD12) (hsel : select env fuel (deselect env st) = some (0, s1)) :
    send_cmd_body env fuel cmd arg st = some (0xFF, s1) := by
  rw [send_cmd_body_eq, if_pos h12, hsel]
  rfl

theorem send_cmd_cmd55 (env : Env) (fuel : Nat) (st : State) :
    send_cmd env (fuel + 1) CMD55 0 st = send_cmd_body env fuel CMD55 0 st :=
  send_cmd_plain env fuel CMD55 0 st (by decide)

theorem send_cmd_app (env : Env) (fuel cmd arg : Nat) (st : State) (h : cmd &&& 0x80 ≠ 0) :
    send_cmd env (fuel + 1) cmd arg st =
      match send_cmd env fuel CMD55 0 st with
      | none => none
      | some (res, s1) =>
        if res > 1 then some (res, s1)
        else send_cmd_body env fuel (cmd &&& 0x7F) arg s1 := by
  simp [send_cmd, h]

theorem land_7F_80 (cmd : Nat) : (cmd &&& 0x7F) &&& 0x80 = 0 := by
  rw [Nat.land_assoc, show (0x7F : Nat) &&& 0x80 = 0 by decide, Nat.and_zero]

/-- The start-token loop of `rcvr_datablock` stopping at poll `n + 1`. -/
theorem token_loop_stop (env : Env) (n fuel : Nat) (st : State) (hf : n < fuel)
    (hcont : ∀ j, j < n → env.card (st.pos + j) % 256 = 0xFF ∧ elapsed env st.pos (j + 1) < 200)
    (hstop : env.card (st.pos + n) % 256 ≠ 0xFF ∨ 200 ≤ elapsed env st.pos (n + 1)) :
    do_while (fun p : Nat × State => xchg_spi env 0xFF p.2)
        (fun p => (p.1 == 0xFF && Timer_Counter1Get p.2 != 0, p)) fuel
        (0, Timer_Counter1Set 200 st)
      = some (env.card (st.pos + n) % 256, polls env (n + 1) (Timer_Counter1Set 200 st)) := by
  exact poll_loop_stop env (fun d s => d == 0xFF && Timer_Counter1Get s != 0) n fuel 0
    (Timer_Counter1Set 200 st) hf
    (by
      intro j hj
      obtain ⟨h1, h2⟩ := hcont j hj
      simp only [polls_eq, Timer_Counter1Get, Timer_Counter1Set, Bool.and_eq_true, bne_iff_ne,
        beq_iff_eq]
      exact ⟨h1, by omega⟩)
    (by
      simp only [polls_eq, Timer_Counter1Get, Timer_Counter1Set]
      rcases hstop with h | h
      · simp [h]
      · have : 200 - elapsed env st.pos (n + 1) = 0 := by omega
        simp [this])

theorem countdown_after_polls (env : Env) (wt m : Nat) (st : State) :
    (polls env m (Timer_Counter1Set wt st)).Timer1 = wt - elapsed env st.pos m := by
  rw [polls_eq]
  rfl

/-! ## The claims -/

/-- C1: for every command index `cmd < 0x80` and every 32-bit argument, once
`send_cmd` is past card selection (in state `s1`) it returns, and everything
it put on the bus after `s1` is: the six bytes `0x40 | cmd`, `arg[31..24]`,
`arg[23..16]`, `arg[15..8]`, `arg[7..0]` and the CRC byte (0x95 for index 0,
0x87 for index 8, 0x01 otherwise), in this order; for CMD12 one dropped 0xFF
exchange; then the `m + 1 ≤ 10` response polls, which are judged on the card
bytes that follow the packet.  The packet is the same for every card, every
tick schedule and every driver state. -/
theorem send_cmd_packet_six_bytes (env : Env) (fuel cmd arg : Nat) (st s1 : State)
    (hcmd : cmd < 0x80) (harg : arg < 2 ^ 32) (hfuel : 10 ≤ fuel)
    (hsel : cmd = CMD12 ∧ s1 = st ∨
      cmd ≠ CMD12 ∧ select env fuel (deselect env st) = some (1, s1)) :
    ∃ m st2, m + 1 ≤ 10 ∧
      send_cmd env (fuel + 1) cmd arg st =
        some (env.card (s1.pos + (if cmd = CMD12 then 7 else 6) + m) % 256, st2) ∧
      st2.log = s1.log ++
        [Event.xchg (0x40 ||| cmd) (env.card s1.pos % 256),
         Event.xchg (arg / 2 ^ 24) (env.card (s1.pos + 1) % 256),
         Event.xchg (arg / 2 ^ 16 % 256) (env.card (s1.pos + 2) % 256),
         Event.xchg (arg / 2 ^ 8 % 256) (env.card (s1.pos + 3) % 256),
         Event.xchg (arg % 256) (env.card (s1.pos + 4) % 256),
         Event.xchg (if cmd = 0 then 0x95 else if cmd = 8 then 0x87 else 0x01)
           (env.card (s1.pos + 5) % 256)] ++
        (if cmd = CMD12 then [Event.xchg 0xFF (env.card (s1.pos + 6) % 256)] else []) ++
        fillers env (s1.pos + (if cmd = CMD12 then 7 else 6)) (m + 1) ∧
      st2.pos = s1.pos + (if cmd = CMD12 then 7 else 6) + (m + 1) ∧
      (∀ i, i < m →
        env.card (s1.pos + (if cmd = CMD12 then 7 else 6) + i) % 256 &&& 0x80 ≠ 0) ∧
      (env.card (s1.pos + (if cmd = CMD12 then 7 else 6) + m) % 256 &&& 0x80 = 0 ∨
        m + 1 = 10) := by
  obtain ⟨m, st2, ⟨hm, hset, hlast⟩, hrun, hpos, _, hlog⟩ :=
    send_cmd_body_run env fuel cmd arg st s1 hfuel hsel
  have hlen : packet_len cmd = (if cmd = CMD12 then 7 else 6) := rfl
  rw [hlen] at hset hlast hrun hpos hlog
  refine ⟨m, st2, by omega, ?_, ?_, hpos, hset, ?_⟩
  · rw [send_cmd_plain env fuel cmd arg st (land_80_of_lt cmd hcmd)]
    exact hrun
  · rw [hlog]
    have h24 : arg / 2 ^ 24 % 256 = arg / 2 ^ 24 := by omega
    simp only [packet_events, crc_byte, lor_40_mod cmd hcmd, Nat.shiftRight_eq_div_pow, h24]
  · rcases hlast with h | h
    · exact Or.inl h
    · exact Or.inr (by omega)

/-- Witness for C1: CMD0 with argument 0x12345678 against `envA`. -/
theorem send_cmd_packet_six_bytes_witness :
    ∃ m st2, m + 1 ≤ 10 ∧
      send_cmd envA 11 0 0x12345678 st0 =
        some (envA.card (selA.pos + (if 0 = CMD12 then 7 else 6) + m) % 256, st2) ∧
      st2.log = selA.log ++
        [Event.xchg (0x40 ||| 0) (envA.card selA.pos % 256),
         Event.xchg (0x12345678 / 2 ^ 24) (envA.card (selA.pos + 1) % 256),
         Event.xchg (0x12345678 / 2 ^ 16 % 256) (envA.card (selA.pos + 2) % 256),
         Event.xchg (0x12345678 / 2 ^ 8 % 256) (envA.card (selA.pos + 3) % 256),
         Event.xchg (0x12345678 % 256) (envA.card (selA.pos + 4) % 256),
         Event.xchg (if 0 = 0 then 0x95 else if 0 = 8 then 0x87 else 0x01)
           (envA.card (selA.pos + 5) % 256)] ++
        (if 0 = CMD12 then [Event.xchg 0xFF (envA.card (selA.pos + 6) % 256)] else []) ++
        fillers envA (selA.pos + (if 0 = CMD12 then 7 else 6)) (m + 1) ∧
      st2.pos = selA.pos + (if 0 = CMD12 then 7 else 6) + (m + 1) ∧
      (∀ i, i < m →
        envA.card (selA.pos + (if 0 = CMD12 then 7 else 6) + i) % 256 &&& 0x80 ≠ 0) ∧
      (envA.card (selA.pos + (if 0 = CMD12 then 7 else 6) + m) % 256 &&& 0x80 = 0 ∨
        m + 1 = 10) :=
  send_cmd_packet_six_bytes envA 10 0 0x12345678 st0 selA (by decide) (by decide) (by decide)
    (Or.inr ⟨by decide, by rfl⟩)

/-- C2: the CRC byte closing the command packet is 0x95 for index 0 (CMD0),
0x87 for index 8 (CMD8) and 0x01 for every other index, whatever the
argument; the index is `cmd & 0x7F`, so this covers the packet of an
application command as well, which is sent after CMD55 was answered with 0 or 1. -/
theorem send_cmd_crc_byte (env : Env) (fuel cmd arg : Nat) (st sA s1 : State)
    (hbyte : cmd < 256) (hfuel : 10 ≤ fuel)
    (hpre : cmd &&& 0x80 = 0 ∧ sA = st ∨
      cmd &&& 0x80 ≠ 0 ∧ ∃ r55, r55 ≤ 1 ∧ send_cmd env fuel CMD55 0 st = some (r55, sA))
    (hsel : cmd &&& 0x7F = CMD12 ∧ s1 = sA ∨
      cmd &&& 0x7F ≠ CMD12 ∧ select env fuel (deselect env sA) = some (1, s1)) :
    ∃ res st2 five tail,
      send_cmd env (fuel + 1) cmd arg st = some (res, st2) ∧
      five.length = 5 ∧
      st2.log = s1.log ++ five ++
        [Event.xchg (if cmd &&& 0x7F = 0 then 0x95 else if cmd &&& 0x7F = 8 then 0x87 else 0x01)
          (env.card (s1.pos + 5) % 256)] ++ tail ∧
      (∀ e, e ∈ tail → ∃ rx, e = Event.xchg 0xFF rx) := by
  obtain ⟨m, st2, _, hrun, _, _, hlog⟩ :=
    send_cmd_body_run env fuel (cmd &&& 0x7F) arg sA s1 hfuel hsel
  have hmask : cmd &&& 0x80 = 0 → cmd &&& 0x7F = cmd := by
    intro h
    interval_cases cmd <;> first | rfl | (exfalso; revert h; decide)
  refine ⟨env.card (s1.pos + packet_len (cmd &&& 0x7F) + m) % 256, st2,
    (packet_events env (cmd &&& 0x7F) arg s1.pos).take 5,
    (if cmd &&& 0x7F = CMD12 then [Event.xchg 0xFF (env.card (s1.pos + 6) % 256)] else []) ++
      fillers env (s1.pos + packet_len (cmd &&& 0x7F)) (m + 1), ?_, ?_, ?_, ?_⟩
  · rcases hpre with ⟨h1, h2⟩ | ⟨h1, r55, hr, h2⟩
    · rw [hmask h1] at hrun ⊢
      rw [send_cmd_plain env fuel cmd arg st h1, ← h2]
      exact hrun
    · simp only [send_cmd, h1, ne_eq, not_false_eq_true, if_true, h2]
      rw [if_neg (by omega)]
      exact hrun
  · simp [packet_events]
  · rw [hlog]
    simp [packet_events, crc_byte]
  · intro e he
    rcases List.mem_append.mp he with h | h
    · split at h
      · simp only [List.mem_singleton] at h
        exact ⟨_, h⟩
      · simp at h
    · exact mem_fillers env _ _ e h

/-- Witness for C2: CMD8 with argument 0x1AA against `envA`. -/
theorem send_cmd_crc_byte_witness :
    ∃ res st2 five tail,
      send_cmd envA 11 8 0x1AA st0 = some (res, st2) ∧
      five.length = 5 ∧
      st2.log = selA.log ++ five ++
        [Event.xchg (if 8 &&& 0x7F = 0 then 0x95 else if 8 &&& 0x7F = 8 then 0x87 else 0x01)
          (envA.card (selA.pos + 5) % 256)] ++ tail ∧
      (∀ e, e ∈ tail → ∃ rx, e = Event.xchg 0xFF rx) :=
  send_cmd_crc_byte envA 10 8 0x1AA st0 st0 selA (by decide) (by decide)
    (Or.inl ⟨by decide, rfl⟩) (Or.inr ⟨by decide, by rfl⟩)

/-- C3: after the packet (and the byte discarded for CMD12) `send_cmd` makes
`m + 1` filler exchanges with `1 ≤ m + 1 ≤ 10`: the first `m` received bytes
have bit 7 set, the loop stops at the first byte with bit 7 clear or at the
tenth byte, the byte received last is returned, and nothing is exchanged
after it. -/
theorem send_cmd_response_poll (env : Env) (fuel cmd arg : Nat) (st s1 : State)
    (hcmd : cmd < 0x80) (hfuel : 10 ≤ fuel)
    (hsel : cmd = CMD12 ∧ s1 = st ∨
      cmd ≠ CMD12 ∧ select env fuel (deselect env st) = some (1, s1)) :
    ∃ m pkt st2, m + 1 ≤ 10 ∧ pkt.length = (if cmd = CMD12 then 7 else 6) ∧
      send_cmd env (fuel + 1) cmd arg st =
        some (env.card (s1.pos + pkt.length + m) % 256, st2) ∧
      st2.log = s1.log ++ pkt ++ fillers env (s1.pos + pkt.length) (m + 1) ∧
      st2.pos = s1.pos + pkt.length + (m + 1) ∧
      (∀ i, i < m → env.card (s1.pos + pkt.length + i) % 256 &&& 0x80 ≠ 0) ∧
      (env.card (s1.pos + pkt.length + m) % 256 &&& 0x80 = 0 ∨ m + 1 = 10) := by
  obtain ⟨m, st2, ⟨hm, hset, hlast⟩, hrun, hpos, _, hlog⟩ :=
    send_cmd_body_run env fuel cmd arg st s1 hfuel hsel
  have hlen : (packet_events env cmd arg s1.pos ++
      (if cmd = CMD12 then [Event.xchg 0xFF (env.card (s1.pos + 6) % 256)] else [])).length
      = packet_len cmd := by
    unfold packet_len packet_events
    by_cases h : cmd = CMD12 <;> simp [h]
  refine ⟨m, packet_events env cmd arg s1.pos ++
      (if cmd = CMD12 then [Event.xchg 0xFF (env.card (s1.pos + 6) % 256)] else []), st2,
    by omega, ?_, ?_, ?_, ?_, ?_, ?_⟩
  · rw [hlen]; rfl
  · rw [hlen, send_cmd_plain env fuel cmd arg st (land_80_of_lt cmd hcmd)]
    exact hrun
  · rw [hlen, hlog]
    simp only [List.append_assoc]
  · rw [hlen]; exact hpos
  · rw [hlen]; exact hset
  · rw [hlen]
    rcases hlast with h | h
    · exact Or.inl h
    · exact Or.inr (by omega)

/-- Witness for C3: CMD0 against `envA`, which answers 0x01 right after the packet. -/
theorem send_cmd_response_poll_witness :
    ∃ m pkt st2, m + 1 ≤ 10 ∧ pkt.length = (if 0 = CMD12 then 7 else 6) ∧
      send_cmd envA 11 0 0 st0 =
        some (envA.card (selA.pos + pkt.length + m) % 256, st2) ∧
      st2.log = selA.log ++ pkt ++ fillers envA (selA.pos + pkt.length) (m + 1) ∧
      st2.pos = selA.pos + pkt.length + (m + 1) ∧
      (∀ i, i < m → envA.card (selA.pos + pkt.length + i) % 256 &&& 0x80 ≠ 0) ∧
      (envA.card (selA.pos + pkt.length + m) % 256 &&& 0x80 = 0 ∨ m + 1 = 10) :=
  send_cmd_response_poll envA 10 0 0 st0 selA (by decide) (by decide)
    (Or.inr ⟨by decide, by rfl⟩)

/-- C4: an application command (bit 7 of `cmd` set) first runs `send_cmd` for
CMD55 with argument 0, whose packet is `0x77 0 0 0 0 0x01`.  If the answer to
that is greater than 1, `send_cmd` returns it in the state the CMD55 exchange
ended in, so nothing of the real command is transmitted.  If the answer is 0
or 1, the call continues exactly as `send_cmd` for index `cmd & 0x7F` from
that state, and once that command is past selection its packet is sent and
its response returned. -/
theorem send_cmd_app_command (env : Env) (g cmd arg r55 : Nat) (st s55 : State)
    (hbit : cmd &&& 0x80 ≠ 0)
    (h55 : send_cmd env (g + 1) CMD55 0 st = some (r55, s55)) :
    ((r55 = 0xFF ∧ select env g (deselect env st) = some (0, s55)) ∨
      (∃ s1 m, select env g (deselect env st) = some (1, s1) ∧
        r55 = env.card (s1.pos + 6 + m) % 256 ∧
        s55.log = s1.log ++
          [Event.xchg 0x77 (env.card s1.pos % 256),
           Event.xchg 0 (env.card (s1.pos + 1) % 256),
           Event.xchg 0 (env.card (s1.pos + 2) % 256),
           Event.xchg 0 (env.card (s1.pos + 3) % 256),
           Event.xchg 0 (env.card (s1.pos + 4) % 256),
           Event.xchg 0x01 (env.card (s1.pos + 5) % 256)] ++
          fillers env (s1.pos + 6) (m + 1))) ∧
    (r55 > 1 → send_cmd env (g + 2) cmd arg st = some (r55, s55)) ∧
    (r55 ≤ 1 →
      send_cmd env (g + 2) cmd arg st = send_cmd env (g + 2) (cmd &&& 0x7F) arg s55) ∧
    (r55 ≤ 1 → 9 ≤ g → ∀ s2,
      (cmd &&& 0x7F = CMD12 ∧ s2 = s55 ∨
        cmd &&& 0x7F ≠ CMD12 ∧ select env (g + 1) (deselect env s55) = some (1, s2)) →
      ∃ m st2, m + 1 ≤ 10 ∧
        send_cmd env (g + 2) cmd arg st =
          some (env.card (s2.pos + packet_len (cmd &&& 0x7F) + m) % 256, st2) ∧
        st2.log = s2.log ++ packet_events env (cmd &&& 0x7F) arg s2.pos ++
          (if cmd &&& 0x7F = CMD12 then [Event.xchg 0xFF (env.card (s2.pos + 6) % 256)]
           else []) ++
          fillers env (s2.pos + packet_len (cmd &&& 0x7F)) (m + 1)) := by
  have hrec := send_cmd_app env (g + 1) cmd arg st hbit
  rw [h55] at hrec
  simp only at hrec
  refine ⟨?_, ?_, ?_, ?_⟩
  · rw [send_cmd_cmd55] at h55
    obtain ⟨ok, s1, hsel, h0, h1⟩ := send_cmd_body_inv env g CMD55 0 r55 st s55 h55
    rw [if_pos (by decide)] at hsel
    rcases select_ret env g _ ok s1 hsel with hok | hok
    · left
      obtain ⟨hr, hs⟩ := h0 hok
      rw [hs, ← hok]
      exact ⟨hr, hsel⟩
    · right
      obtain ⟨m, _, hr, hs⟩ := h1 (by omega)
      refine ⟨s1, m, by rw [← hok]; exact hsel, hr, ?_⟩
      rw [hs, polls_eq, packet_state_log, packet_state_pos]
      simp [packet_events, packet_len, CMD55, CMD12, crc_byte]
  · intro hgt
    rw [hrec, if_pos hgt]
  · intro hle
    rw [hrec, if_neg (by omega), send_cmd_plain env (g + 1) _ arg s55 (land_7F_80 cmd)]
  · intro hle hg s2 hsel
    obtain ⟨m, st2, ⟨hm, _, _⟩, hrun, _, _, hlog⟩ :=
      send_cmd_body_run env (g + 1) (cmd &&& 0x7F) arg s55 s2 (by omega) hsel
    refine ⟨m, st2, by omega, ?_, hlog⟩
    rw [hrec, if_neg (by omega)]
    exact hrun

/-- Witness for C4: ACMD41 against `envA`, where CMD55 is answered with 0x01. -/
theorem send_cmd_app_command_witness :
    ((1 = 0xFF ∧ select envA 10 (deselect envA st0) = some (0, (polls envA 1 (packet_state envA CMD55 0 selA)))) ∨
      (∃ s1 m, select envA 10 (deselect envA st0) = some (1, s1) ∧
        1 = envA.card (s1.pos + 6 + m) % 256 ∧
        (polls envA 1 (packet_state envA CMD55 0 selA)).log = s1.log ++
          [Event.xchg 0x77 (envA.card s1.pos % 256),
           Event.xchg 0 (envA.card (s1.pos + 1) % 256),
           Event.xchg 0 (envA.card (s1.pos + 2) % 256),
           Event.xchg 0 (envA.card (s1.pos + 3) % 256),
           Event.xchg 0 (envA.card (s1.pos + 4) % 256),
           Event.xchg 0x01 (envA.card (s1.pos + 5) % 256)] ++
          fillers envA (s1.pos + 6) (m + 1))) ∧
    (1 > 1 → send_cmd envA 12 0xA9 0 st0
      = some (1, (polls envA 1 (packet_state envA CMD55 0 selA)))) ∧
    (1 ≤ 1 →
      send_cmd envA 12 0xA9 0 st0
        = send_cmd envA 12 (0xA9 &&& 0x7F) 0 (polls envA 1 (packet_state envA CMD55 0 selA))) ∧
    (1 ≤ 1 → 9 ≤ 10 → ∀ s2,
      (0xA9 &&& 0x7F = CMD12 ∧ s2 = (polls envA 1 (packet_state envA CMD55 0 selA)) ∨
        0xA9 &&& 0x7F ≠ CMD12 ∧
          select envA 11 (deselect envA (polls envA 1 (packet_state envA CMD55 0 selA)))
            = some (1, s2)) →
      ∃ m st2, m + 1 ≤ 10 ∧
        send_cmd envA 12 0xA9 0 st0 =
          some (envA.card (s2.pos + packet_len (0xA9 &&& 0x7F) + m) % 256, st2) ∧
        st2.log = s2.log ++ packet_events envA (0xA9 &&& 0x7F) 0 s2.pos ++
          (if 0xA9 &&& 0x7F = CMD12 then [Event.xchg 0xFF (envA.card (s2.pos + 6) % 256)]
           else []) ++
          fillers envA (s2.pos + packet_len (0xA9 &&& 0x7F)) (m + 1)) :=
  send_cmd_app_command envA 10 0xA9 0 1 st0 (polls envA 1 (packet_state envA CMD55 0 selA))
    (by decide) (by rfl)

/-- C5: for every command other than CMD12, whatever `send_cmd` returns, the
first things it did were: chip-select high and a dummy clock (deselect),
chip-select low and a dummy clock, then the ready wait.  If that selection
times out, `send_cmd` returns 0xFF in the state `select` left, and the only
events since entry are chip-select changes and 0xFF filler exchanges: no byte
of a command packet was transmitted. -/
theorem send_cmd_select_first (env : Env) (fuel cmd arg : Nat) (st : State)
    (h12 : cmd ≠ CMD12) :
    (∀ f res st2, send_cmd env f cmd arg st = some (res, st2) →
      ∃ tail, st2.log = st.log ++
        [Event.csHigh, Event.xchg 0xFF (env.card st.pos % 256),
         Event.csLow, Event.xchg 0xFF (env.card (st.pos + 1) % 256),
         Event.xchg 0xFF (env.card (st.pos + 2) % 256)] ++ tail) ∧
    (∀ s1, select env fuel (deselect env st) = some (0, s1) →
      (∀ f, fuel + 2 ≤ f → send_cmd env f cmd arg st = some (0xFF, s1)) ∧
      s1.cs = false ∧
      ∃ n, s1.log = st.log ++
        [Event.csHigh, Event.xchg 0xFF (env.card st.pos % 256),
         Event.csLow, Event.xchg 0xFF (env.card (st.pos + 1) % 256)] ++
        fillers env (st.pos + 2) (n + 1) ++
        [Event.csHigh, Event.xchg 0xFF (env.card (st.pos + 2 + (n + 1)) % 256)]) := by
  constructor
  · intro f res st2 h
    cases f with
    | zero => simp [send_cmd] at h
    | succ g =>
      by_cases hbit : cmd &&& 0x80 = 0
      · rw [send_cmd_plain env g cmd arg st hbit] at h
        exact send_cmd_body_starts env g cmd arg res st st2 h12 h
      · rw [send_cmd_app env g cmd arg st hbit] at h
        split at h
        · simp at h
        · rename_i r55 s55 h55
          cases g with
          | zero => simp [send_cmd] at h55
          | succ k =>
            rw [send_cmd_cmd55] at h55
            obtain ⟨t1, ht1⟩ :=
              send_cmd_body_starts env k CMD55 0 r55 st s55 (by decide) h55
            by_cases hgt : r55 > 1
            · rw [if_pos hgt] at h
              simp only [Option.some.injEq, Prod.mk.injEq] at h
              rw [← h.2]
              exact ⟨t1, ht1⟩
            · rw [if_neg hgt] at h
              obtain ⟨t2, ht2⟩ := send_cmd_body_log_mono env _ _ arg res s55 st2 h
              rw [ht2, ht1, List.append_assoc]
              exact ⟨_, rfl⟩
  · intro s1 hsel
    refine ⟨?_, ?_, ?_⟩
    · intro f hf
      obtain ⟨g, rfl⟩ : ∃ g, f = g + 1 := ⟨f - 1, by omega⟩
      by_cases hbit : cmd &&& 0x80 = 0
      · rw [send_cmd_plain env g cmd arg st hbit]
        exact send_cmd_body_timeout env g cmd arg st s1 h12
          (select_mono env fuel g _ _ hsel (by omega))
      · obtain ⟨k, rfl⟩ : ∃ k, g = k + 1 := ⟨g - 1, by omega⟩
        rw [send_cmd_app env (k + 1) cmd arg st hbit, send_cmd_cmd55,
          send_cmd_body_timeout env k CMD55 0 st s1 (by decide)
            (select_mono env fuel k _ _ hsel (by omega))]
        rfl
    · obtain ⟨n, hn⟩ := select_log env fuel _ 0 s1 hsel
      rcases hn with ⟨hr, _⟩ | ⟨_, hcs, _⟩
      · omega
      · exact hcs
    · obtain ⟨n, hn⟩ := select_log env fuel _ 0 s1 hsel
      rcases hn with ⟨hr, _⟩ | ⟨_, _, hl⟩
      · omega
      · refine ⟨n, ?_⟩
        rw [hl, deselect_eq]
        simp [List.append_assoc, Nat.add_assoc]

set_option maxRecDepth 100000 in
/-- Witness for C5: against `envB` the selection made for CMD0 times out and
`send_cmd` returns 0xFF in the state `select` left. -/
theorem send_cmd_select_first_witness :
    send_cmd envB 12 0 0 st0 = some (0xFF, selB) :=
  ((send_cmd_select_first envB 10 0 0 st0 (by decide)).2 selB (by rfl)).1 12 (by decide)

/-- C6: for CMD12 the packet is the first thing on the bus after entry (no
deselect, no select, chip-select unchanged); the byte received right after the
CRC byte is exchanged and dropped, and the response loop looks only at the
bytes after it.  For every other command `cmd < 0x80` the response loop starts
with the byte received right after the CRC byte. -/
theorem send_cmd_cmd12_discard (env : Env) (fuel arg : Nat) (st : State) (hfuel : 10 ≤ fuel) :
    (∃ m st2, m + 1 ≤ 10 ∧
      send_cmd env (fuel + 1) CMD12 arg st = some (env.card (st.pos + 7 + m) % 256, st2) ∧
      st2.log = st.log ++ packet_events env CMD12 arg st.pos ++
        [Event.xchg 0xFF (env.card (st.pos + 6) % 256)] ++ fillers env (st.pos + 7) (m + 1) ∧
      st2.cs = st.cs ∧
      st2.pos = st.pos + 7 + (m + 1) ∧
      (∀ i, i < m → env.card (st.pos + 7 + i) % 256 &&& 0x80 ≠ 0) ∧
      (env.card (st.pos + 7 + m) % 256 &&& 0x80 = 0 ∨ m + 1 = 10)) ∧
    (∀ cmd s1, cmd < 0x80 → cmd ≠ CMD12 →
      select env fuel (deselect env st) = some (1, s1) →
      ∃ m st2, m + 1 ≤ 10 ∧
        send_cmd env (fuel + 1) cmd arg st = some (env.card (s1.pos + 6 + m) % 256, st2) ∧
        st2.log = s1.log ++ packet_events env cmd arg s1.pos ++
          fillers env (s1.pos + 6) (m + 1) ∧
        st2.pos = s1.pos + 6 + (m + 1) ∧
        (∀ i, i < m → env.card (s1.pos + 6 + i) % 256 &&& 0x80 ≠ 0) ∧
        (env.card (s1.pos + 6 + m) % 256 &&& 0x80 = 0 ∨ m + 1 = 10)) := by
  constructor
  · obtain ⟨m, st2, ⟨hm, hset, hlast⟩, hrun, hpos, hcs, hlog⟩ :=
      send_cmd_body_run env fuel CMD12 arg st st hfuel (Or.inl ⟨rfl, rfl⟩)
    have hl : packet_len CMD12 = 7 := rfl
    rw [hl] at hset hlast hrun hpos hlog
    refine ⟨m, st2, by omega, ?_, ?_, hcs, hpos, hset, ?_⟩
    · rw [send_cmd_plain env fuel CMD12 arg st (by decide)]
      exact hrun
    · rw [hlog, if_pos rfl]
    · rcases hlast with h | h
      · exact Or.inl h
      · exact Or.inr (by omega)
  · intro cmd s1 hcmd h12 hsel
    obtain ⟨m, st2, ⟨hm, hset, hlast⟩, hrun, hpos, _, hlog⟩ :=
      send_cmd_body_run env fuel cmd arg st s1 hfuel (Or.inr ⟨h12, hsel⟩)
    have hl : packet_len cmd = 6 := by simp [packet_len, h12]
    rw [hl] at hset hlast hrun hpos hlog
    refine ⟨m, st2, by omega, ?_, ?_, hpos, hset, ?_⟩
    · rw [send_cmd_plain env fuel cmd arg st (land_80_of_lt cmd hcmd)]
      exact hrun
    · rw [hlog, if_neg h12, List.append_nil]
    · rcases hlast with h | h
      · exact Or.inl h
      · exact Or.inr (by omega)

/-- Witness for C6: CMD12 with argument 0 against `envA` from the initial state. -/
theorem send_cmd_cmd12_discard_witness :
    ∃ m st2, m + 1 ≤ 10 ∧
      send_cmd envA 11 CMD12 0 st0 = some (envA.card (st0.pos + 7 + m) % 256, st2) ∧
      st2.log = st0.log ++ packet_events envA CMD12 0 st0.pos ++
        [Event.xchg 0xFF (envA.card (st0.pos + 6) % 256)] ++ fillers envA (st0.pos + 7) (m + 1) ∧
      st2.cs = st0.cs ∧
      st2.pos = st0.pos + 7 + (m + 1) ∧
      (∀ i, i < m → envA.card (st0.pos + 7 + i) % 256 &&& 0x80 ≠ 0) ∧
      (envA.card (st0.pos + 7 + m) % 256 &&& 0x80 = 0 ∨ m + 1 = 10) :=
  (send_cmd_cmd12_discard envA 10 0 st0 (by decide)).1

/-- C7: `select` drives chip-select low, makes one dummy exchange and runs the
ready wait.  When the wait stops at its poll `n + 1`, `select` returns 1
exactly when the byte received at that poll is 0xFF, and then chip-select is
left asserted and nothing more was exchanged; otherwise it returns 0 after
driving chip-select high and making one more dummy exchange. -/
theorem select_ready_or_release (env : Env) (n fuel : Nat) (st : State) (hf : n < fuel)
    (hcont : ∀ j, j < n →
      env.card (st.pos + 1 + j) % 256 ≠ 0xFF ∧ elapsed env (st.pos + 1) (j + 1) < 500)
    (hstop : env.card (st.pos + 1 + n) % 256 = 0xFF ∨ 500 ≤ elapsed env (st.pos + 1) (n + 1)) :
    ∃ r st2, select env fuel st = some (r, st2) ∧
      (r = 1 ↔ env.card (st.pos + 1 + n) % 256 = 0xFF) ∧
      (r = 0 ↔ env.card (st.pos + 1 + n) % 256 ≠ 0xFF) ∧
      (r = 1 → st2.cs = true ∧ st2.pos = st.pos + 1 + (n + 1) ∧
        st2.log = st.log ++ [Event.csLow, Event.xchg 0xFF (env.card st.pos % 256)]
                    ++ fillers env (st.pos + 1) (n + 1)) ∧
      (r = 0 → st2.cs = false ∧ st2.pos = st.pos + 1 + (n + 1) + 1 ∧
        st2.log = st.log ++ [Event.csLow, Event.xchg 0xFF (env.card st.pos % 256)]
                    ++ fillers env (st.pos + 1) (n + 1)
                    ++ [Event.csHigh,
                        Event.xchg 0xFF (env.card (st.pos + 1 + (n + 1)) % 256)]) := by
  have hs := select_stop env n fuel st hf hcont hstop
  by_cases hc : env.card (st.pos + 1 + n) % 256 = 0xFF
  · rw [if_pos hc] at hs
    refine ⟨1, _, hs, by simp [hc], by simp [hc], ?_, ?_⟩
    · intro _
      exact ⟨rfl, rfl, rfl⟩
    · intro h
      omega
  · rw [if_neg hc] at hs
    refine ⟨0, _, hs, by simp [hc], by simp [hc], ?_, ?_⟩
    · intro h
      omega
    · intro _
      exact ⟨rfl, rfl, rfl⟩

set_option maxRecDepth 8000 in
/-- Witness for C7: against `envA` from the initial state the ready wait of
`select` stops at its third poll, on a received 0xFF. -/
theorem select_ready_or_release_witness :
    ∃ r st2, select envA 5 st0 = some (r, st2) ∧
      (r = 1 ↔ envA.card (st0.pos + 1 + 2) % 256 = 0xFF) ∧
      (r = 0 ↔ envA.card (st0.pos + 1 + 2) % 256 ≠ 0xFF) ∧
      (r = 1 → st2.cs = true ∧ st2.pos = st0.pos + 1 + (2 + 1) ∧
        st2.log = st0.log ++ [Event.csLow, Event.xchg 0xFF (envA.card st0.pos % 256)]
                    ++ fillers envA (st0.pos + 1) (2 + 1)) ∧
      (r = 0 → st2.cs = false ∧ st2.pos = st0.pos + 1 + (2 + 1) + 1 ∧
        st2.log = st0.log ++ [Event.csLow, Event.xchg 0xFF (envA.card st0.pos % 256)]
                    ++ fillers envA (st0.pos + 1) (2 + 1)
                    ++ [Event.csHigh,
                        Event.xchg 0xFF (envA.card (st0.pos + 1 + (2 + 1)) % 256)]) :=
  select_ready_or_release envA 2 5 st0 (by decide) (by decide) (by decide)

/-- C8: for a card that never returns 0xFF, `wait_ready(wt)` returns 0 at the
first poll at which the countdown armed to `wt` reads zero: the countdown was
non-zero at each of the `n` polls before, it is zero at poll `n + 1`, and with
fuel for `n + 1` polls the result is 0 in the state after exactly `n + 1`
polls.  No run of `wait_ready`, whatever the fuel, returns anything but 0 with
the countdown at zero.  `select`, whose window is 500, fails in the same way. -/
theorem wait_ready_timeout_exact (env : Env) (st : State) (wt n fuel : Nat)
    (hcard : ∀ k, st.pos ≤ k → env.card k % 256 ≠ 0xFF)
    (hlt : ∀ j, j < n → elapsed env st.pos (j + 1) < wt)
    (hge : wt ≤ elapsed env st.pos (n + 1))
    (hf : n < fuel) :
    (∀ j, j < n → (polls env (j + 1) (Timer_Counter1Set wt st)).Timer1 ≠ 0) ∧
    (polls env (n + 1) (Timer_Counter1Set wt st)).Timer1 = 0 ∧
    (polls env (n + 1) (Timer_Counter1Set wt st)).pos = st.pos + (n + 1) ∧
    wait_ready env fuel wt st = some (0, polls env (n + 1) (Timer_Counter1Set wt st)) ∧
    (∀ f r s, wait_ready env f wt st = some (r, s) → r = 0 ∧ s.Timer1 = 0) ∧
    (wt = 500 → ∀ sA, st = (xchg_spi env 0xFF (CS_LOW sA)).2 →
      ∃ s2, select env fuel sA = some (0, s2) ∧ s2.cs = false ∧
        s2.pos = st.pos + (n + 1) + 1) := by
  have hw := wait_ready_stop env n fuel wt st hf
    (fun j hj => ⟨hcard _ (by omega), hlt j hj⟩) (Or.inr hge)
  rw [if_neg (hcard _ (by omega))] at hw
  refine ⟨?_, ?_, ?_, hw, ?_, ?_⟩
  · intro j hj
    rw [countdown_after_polls]
    have := hlt j hj
    omega
  · rw [countdown_after_polls]
    omega
  · rw [polls_eq]
    rfl
  · intro f r s h
    obtain ⟨k, _, _, hstop, hr, hs⟩ := wait_ready_inv env f wt st r s h
    have hne := hcard (st.pos + k) (by omega)
    rcases hstop with h1 | h1
    · exact absurd h1 hne
    · rw [if_neg hne] at hr
      refine ⟨hr, ?_⟩
      rw [hs, countdown_after_polls]
      omega
  · intro hwt sA hst
    subst hwt
    subst hst
    unfold select
    simp only [hw]
    refine ⟨_, rfl, ?_, ?_⟩
    · rw [deselect_eq]
    · rw [deselect_eq, polls_eq]
      rfl

set_option maxRecDepth 100000 in
/-- Witness for C8: against `envB` (100 ticks per exchange) a wait armed to
250 ends at its third poll. -/
theorem wait_ready_timeout_exact_witness :
    (∀ j, j < 2 → (polls envB (j + 1) (Timer_Counter1Set 250 st0)).Timer1 ≠ 0) ∧
    (polls envB (2 + 1) (Timer_Counter1Set 250 st0)).Timer1 = 0 ∧
    (polls envB (2 + 1) (Timer_Counter1Set 250 st0)).pos = st0.pos + (2 + 1) ∧
    wait_ready envB 3 250 st0 = some (0, polls envB (2 + 1) (Timer_Counter1Set 250 st0)) ∧
    (∀ f r s, wait_ready envB f 250 st0 = some (r, s) → r = 0 ∧ s.Timer1 = 0) ∧
    (250 = 500 → ∀ sA, st0 = (xchg_spi envB 0xFF (CS_LOW sA)).2 →
      ∃ s2, select envB 3 sA = some (0, s2) ∧ s2.cs = false ∧
        s2.pos = st0.pos + (2 + 1) + 1) :=
  wait_ready_timeout_exact envB st0 250 2 3 (by intro k _; simp [envB]) (by decide) (by decide)
    (by decide)

/-- C9: if the card returns 0xFF on every exchange, `rcvr_datablock` arms the
countdown to 200, polls while the countdown is non-zero, stops at the first
poll at which it reads zero and returns 0; the buffer it returns is the
caller's buffer unchanged, and it exchanged nothing but the polls. -/
theorem rcvr_datablock_timeout (env : Env) (st : State) (buff : Nat → Nat)
    (btr n fuel : Nat)
    (hcard : ∀ k, st.pos ≤ k → env.card k % 256 = 0xFF)
    (hlt : ∀ j, j < n → elapsed env st.pos (j + 1) < 200)
    (hge : 200 ≤ elapsed env st.pos (n + 1))
    (hf : n < fuel) :
    rcvr_datablock env fuel buff btr st =
      some (0, buff, polls env (n + 1) (Timer_Counter1Set 200 st)) ∧
    (∀ j, j < n → (polls env (j + 1) (Timer_Counter1Set 200 st)).Timer1 ≠ 0) ∧
    (polls env (n + 1) (Timer_Counter1Set 200 st)).Timer1 = 0 ∧
    (polls env (n + 1) (Timer_Counter1Set 200 st)).log = st.log ++ fillers env st.pos (n + 1) := by
  have hloop := token_loop_stop env n fuel st hf
    (fun j hj => ⟨hcard _ (by omega), hlt j hj⟩) (Or.inr hge)
  refine ⟨?_, ?_, ?_, ?_⟩
  · unfold rcvr_datablock
    rw [hloop]
    simp only [hcard (st.pos + n) (by omega)]
    rfl
  · intro j hj
    rw [countdown_after_polls]
    have := hlt j hj
    omega
  · rw [countdown_after_polls]
    omega
  · rw [polls_eq]
    rfl

set_option maxRecDepth 100000 in
/-- Witness for C9: against `envD` (50 ticks per exchange) the wait for the
start token ends at the fourth poll. -/
theorem rcvr_datablock_timeout_witness :
    rcvr_datablock envD 4 (fun i => i) 3 st0 =
      some (0, (fun i => i), polls envD (3 + 1) (Timer_Counter1Set 200 st0)) ∧
    (∀ j, j < 3 → (polls envD (j + 1) (Timer_Counter1Set 200 st0)).Timer1 ≠ 0) ∧
    (polls envD (3 + 1) (Timer_Counter1Set 200 st0)).Timer1 = 0 ∧
    (polls envD (3 + 1) (Timer_Counter1Set 200 st0)).log
      = st0.log ++ fillers envD st0.pos (3 + 1) :=
  rcvr_datablock_timeout envD st0 (fun i => i) 3 3 4 (by intro k _; simp [envD]) (by decide)
    (by decide) (by decide)

/-- C10: when the card sends 0xFF `n` times and then the start token 0xFE,
and the countdown armed to 200 is still non-zero after each of those `n`
polls, `rcvr_datablock(buff, btr)` returns 1; `buff[i]` for `i < btr` is the
byte of exchange `i` after the token, the memory from offset `btr` on is
untouched, and exactly two more exchanges follow the data, whatever the card
sends in them. -/
theorem rcvr_datablock_ok (env : Env) (st : State) (buff : Nat → Nat) (btr n fuel : Nat)
    (hff : ∀ j, j < n → env.card (st.pos + j) % 256 = 0xFF)
    (htok : env.card (st.pos + n) % 256 = 0xFE)
    (hlt : ∀ j, j < n → elapsed env st.pos (j + 1) < 200)
    (hf : n < fuel) :
    ∃ b st2, rcvr_datablock env fuel buff btr st = some (1, b, st2) ∧
      (∀ i, i < btr → b i = env.card (st.pos + (n + 1) + i) % 256) ∧
      (∀ i, btr ≤ i → b i = buff i) ∧
      st2.pos = st.pos + (n + 1) + btr + 2 ∧
      st2.cs = st.cs ∧
      st2.log = st.log ++ fillers env st.pos (n + 1 + btr + 2) := by
  have hloop := token_loop_stop env n fuel st hf
    (fun j hj => ⟨hff j hj, hlt j hj⟩) (Or.inl (by rw [htok]; decide))
  have hrun : rcvr_datablock env fuel buff btr st =
      some (1, (fun i => if i < btr then env.card (st.pos + (n + 1) + i) % 256 else buff i),
        polls env (n + 1 + btr + 2) (Timer_Counter1Set 200 st)) := by
    unfold rcvr_datablock
    rw [hloop]
    simp only [htok, ne_eq, not_true_eq_false, if_false, rcvr_spi_multi_eq]
    have hp : (polls env (n + 1) (Timer_Counter1Set 200 st)).pos = st.pos + (n + 1) := by
      rw [polls_eq]; rfl
    rw [hp, polls_add env (n + 1 + btr) 2, polls_add env (n + 1) btr]
    rfl
  refine ⟨_, _, hrun, ?_, ?_, ?_, ?_, ?_⟩
  · intro i hi
    simp [hi]
  · intro i hi
    simp [Nat.not_lt.mpr hi]
  · rw [polls_eq]
    show st.pos + (n + 1 + btr + 2) = _
    omega
  · rw [polls_eq]
    rfl
  · rw [polls_eq]
    rfl

set_option maxRecDepth 100000 in
/-- Witness for C10: against `envC` the token is the third byte; three data
bytes and two trailer bytes follow. -/
theorem rcvr_datablock_ok_witness :
    ∃ b st2, rcvr_datablock envC 3 (fun _ => 0) 3 st0 = some (1, b, st2) ∧
      (∀ i, i < 3 → b i = envC.card (st0.pos + (2 + 1) + i) % 256) ∧
      (∀ i, 3 ≤ i → b i = (fun _ => 0) i) ∧
      st2.pos = st0.pos + (2 + 1) + 3 + 2 ∧
      st2.cs = st0.cs ∧
      st2.log = st0.log ++ fillers envC st0.pos (2 + 1 + 3 + 2) :=
  rcvr_datablock_ok envC st0 (fun _ => 0) 3 2 3 (by decide) (by decide) (by decide) (by decide)

/-! ## Block transmit -/

theorem payload_events_succ (env : Env) (buff : Nat → Nat) (p m : Nat) :
    payload_events env buff p (m + 1) =
      payload_events env buff p m ++ [Event.xchg (buff m % 256) (env.card (p + m) % 256)] := by
  simp [payload_events, List.range_succ]

theorem xmit_spi_multi_eq (env : Env) (buff : Nat → Nat) (btx : Nat) (st : State) :
    xmit_spi_multi env buff btx st =
      { pos := st.pos + btx
        Timer1 := st.Timer1 - elapsed env st.pos btx
        cs := st.cs
        log := st.log ++ payload_events env buff st.pos btx } := by
  induction btx with
  | zero => simp [xmit_spi_multi, elapsed, payload_events]
  | succ b ih =>
    unfold xmit_spi_multi at ih ⊢
    rw [List.range_succ, List.foldl_append, ih]
    simp only [List.foldl_cons, List.foldl_nil, spi_tx, countdown_tick_iterate,
      payload_events_succ, elapsed]
    simp [Nat.add_assoc, Nat.sub_sub]

theorem sent_bytes_append (a b : List Event) :
    sent_bytes (a ++ b) = sent_bytes a ++ sent_bytes b := by
  induction a with
  | nil => rfl
  | cons e es ih =>
    cases e <;> simp [sent_bytes, ih]

theorem sent_bytes_payload (env : Env) (buff : Nat → Nat) (p m : Nat) :
    sent_bytes (payload_events env buff p m) = (List.range m).map (fun i => buff i % 256) := by
  induction m with
  | zero => rfl
  | succ m ih =>
    rw [payload_events_succ, sent_bytes_append, ih, List.range_succ, List.map_append]
    rfl

/-- The run of `xmit_datablock` for a data token once the ready wait succeeded in `sr`. -/
theorem xmit_datablock_run (env : Env) (fuel : Nat) (buff : Nat → Nat) (token : Nat)
    (st sr : State) (htok : token ≠ 0xFD) (hready : wait_ready env fuel 500 st = some (1, sr)) :
    ∃ st2, xmit_datablock env fuel buff token st =
        some (if env.card (sr.pos + 515) % 256 &&& 0x1F = 0x05 then 1 else 0, st2) ∧
      st2.pos = sr.pos + 516 ∧ st2.cs = sr.cs ∧
      st2.log = sr.log ++ [Event.xchg (token % 256) (env.card sr.pos % 256)] ++
        payload_events env buff (sr.pos + 1) 512 ++
        [Event.xchg 0xFF (env.card (sr.pos + 513) % 256),
         Event.xchg 0xFF (env.card (sr.pos + 514) % 256),
         Event.xchg 0xFF (env.card (sr.pos + 515) % 256)] := by
  unfold xmit_datablock
  rw [hready]
  simp only [htok, ne_eq, not_false_eq_true, if_true, xmit_spi_multi_eq, xchg_spi_snd,
    xchg_spi_fst, Nat.add_assoc]
  by_cases h : env.card (sr.pos + 515) % 256 &&& 0x1F = 0x05
  · simp [h, Nat.add_assoc]
  · simp [h, Nat.add_assoc]

/-- The run of `rcvr_datablock` when the start token is byte `n + 1` after `n` bytes 0xFF. -/
theorem rcvr_datablock_run (env : Env) (st : State) (buff : Nat → Nat) (btr n fuel : Nat)
    (hff : ∀ j, j < n → env.card (st.pos + j) % 256 = 0xFF)
    (htok : env.card (st.pos + n) % 256 = 0xFE)
    (hlt : ∀ j, j < n → elapsed env st.pos (j + 1) < 200)
    (hf : n < fuel) :
    rcvr_datablock env fuel buff btr st =
      some (1, (fun i => if i < btr then env.card (st.pos + (n + 1) + i) % 256 else buff i),
        polls env (n + 1 + btr + 2) (Timer_Counter1Set 200 st)) := by
  have hloop := token_loop_stop env n fuel st hf
    (fun j hj => ⟨hff j hj, hlt j hj⟩) (Or.inl (by rw [htok]; decide))
  unfold rcvr_datablock
  rw [hloop]
  simp only [htok, ne_eq, not_true_eq_false, if_false, rcvr_spi_multi_eq]
  have hp : (polls env (n + 1) (Timer_Counter1Set 200 st)).pos = st.pos + (n + 1) := by
    rw [polls_eq]; rfl
  rw [hp, polls_add env (n + 1 + btr) 2, polls_add env (n + 1) btr]
  rfl

theorem data_frame_getD_zero (p : Nat → Nat) (token : Nat) :
    (data_frame p token).getD 0 0 = token := rfl

theorem data_frame_getD_succ (p : Nat → Nat) (token i : Nat) (hi : i < 512) :
    (data_frame p token).getD (i + 1) 0 = p i := by
  unfold data_frame
  rw [List.getD_cons_succ, List.getD_append _ _ _ _ (by simpa using hi)]
  rw [List.getD_eq_getElem _ _ (by simpa using hi)]
  simp

/-- C11: for every token other than 0xFD and every payload, once the ready
wait succeeded `xmit_datablock` sends the token, the 512 payload bytes and two
0xFF bytes, reads the data response `resp` in one more exchange and returns 1
if and only if `(resp & 0x1F) == 0x05`, and 0 otherwise; a response of 0x1D
makes it return 0. -/
theorem xmit_datablock_data_response (env : Env) (fuel : Nat) (buff : Nat → Nat)
    (token : Nat) (st sr : State) (htok : token ≠ 0xFD)
    (hready : wait_ready env fuel 500 st = some (1, sr)) :
    ∃ r st2, xmit_datablock env fuel buff token st = some (r, st2) ∧
      st2.log = sr.log ++ [Event.xchg (token % 256) (env.card sr.pos % 256)] ++
        payload_events env buff (sr.pos + 1) 512 ++
        [Event.xchg 0xFF (env.card (sr.pos + 513) % 256),
         Event.xchg 0xFF (env.card (sr.pos + 514) % 256),
         Event.xchg 0xFF (env.card (sr.pos + 515) % 256)] ∧
      (r = 1 ↔ env.card (sr.pos + 515) % 256 &&& 0x1F = 0x05) ∧
      (r = 0 ↔ env.card (sr.pos + 515) % 256 &&& 0x1F ≠ 0x05) ∧
      (env.card (sr.pos + 515) % 256 = 0x1D → r = 0) := by
  obtain ⟨st2, hrun, _, _, hlog⟩ := xmit_datablock_run env fuel buff token st sr htok hready
  refine ⟨_, st2, hrun, hlog, ?_, ?_, ?_⟩
  · by_cases h : env.card (sr.pos + 515) % 256 &&& 0x1F = 0x05 <;> simp [h]
  · by_cases h : env.card (sr.pos + 515) % 256 &&& 0x1F = 0x05 <;> simp [h]
  · intro h
    rw [h]
    decide

/-- Witness for C11: the data token 0xFE against `envE`, which answers the block with 0x1D. -/
theorem xmit_datablock_data_response_witness :
    ∃ r st2, xmit_datablock envE 5 (fun i => i % 256) 0xFE st0 = some (r, st2) ∧
      st2.log = readyE.log ++ [Event.xchg (0xFE % 256) (envE.card readyE.pos % 256)] ++
        payload_events envE (fun i => i % 256) (readyE.pos + 1) 512 ++
        [Event.xchg 0xFF (envE.card (readyE.pos + 513) % 256),
         Event.xchg 0xFF (envE.card (readyE.pos + 514) % 256),
         Event.xchg 0xFF (envE.card (readyE.pos + 515) % 256)] ∧
      (r = 1 ↔ envE.card (readyE.pos + 515) % 256 &&& 0x1F = 0x05) ∧
      (r = 0 ↔ envE.card (readyE.pos + 515) % 256 &&& 0x1F ≠ 0x05) ∧
      (envE.card (readyE.pos + 515) % 256 = 0x1D → r = 0) :=
  xmit_datablock_data_response envE 5 (fun i => i % 256) 0xFE st0 readyE (by decide) (by rfl)

/-- C12: for every 512-byte payload `p`, after its ready wait
`xmit_datablock(p, 0xFE)` sends 0xFE, then `p[0..511]` in order, then 0xFF
0xFF, and the only exchange after this frame is the read of the data
response.  When a card sends that same frame, `rcvr_datablock(out, 512)`
returns 1 and `out[i] = p[i]` for every `i < 512`. -/
theorem xmit_rcvr_roundtrip (env : Env) (fuel : Nat) (p : Nat → Nat) (st sr : State)
    (hp : ∀ i, i < 512 → p i < 256)
    (hready : wait_ready env fuel 500 st = some (1, sr)) :
    ∃ r st2 frame resp,
      xmit_datablock env fuel p 0xFE st = some (r, st2) ∧
      st2.log = sr.log ++ frame ++ [Event.xchg 0xFF resp] ∧
      frame.length = 515 ∧
      sent_bytes frame = data_frame p 0xFE ∧
      (∀ (envR : Env) (fuelR : Nat) (stR : State) (out : Nat → Nat), 0 < fuelR →
        (∀ k, k < 515 → envR.card (stR.pos + k) % 256 = (sent_bytes frame).getD k 0) →
        ∃ b sR, rcvr_datablock envR fuelR out 512 stR = some (1, b, sR) ∧
          ∀ i, i < 512 → b i = p i) := by
  obtain ⟨st2, hrun, _, _, hlog⟩ :=
    xmit_datablock_run env fuel p 0xFE st sr (by decide) hready
  have hsent : sent_bytes ([Event.xchg (0xFE % 256) (env.card sr.pos % 256)] ++
      payload_events env p (sr.pos + 1) 512 ++
      [Event.xchg 0xFF (env.card (sr.pos + 513) % 256),
       Event.xchg 0xFF (env.card (sr.pos + 514) % 256)]) = data_frame p 0xFE := by
    rw [sent_bytes_append, sent_bytes_append, sent_bytes_payload]
    have hmap : (List.range 512).map (fun i => p i % 256) = (List.range 512).map p := by
      apply List.map_congr_left
      intro i hi
      exact Nat.mod_eq_of_lt (hp i (List.mem_range.mp hi))
    rw [hmap]
    rfl
  refine ⟨_, st2, [Event.xchg (0xFE % 256) (env.card sr.pos % 256)] ++
      payload_events env p (sr.pos + 1) 512 ++
      [Event.xchg 0xFF (env.card (sr.pos + 513) % 256),
       Event.xchg 0xFF (env.card (sr.pos + 514) % 256)],
    env.card (sr.pos + 515) % 256, hrun, ?_, ?_, hsent, ?_⟩
  · rw [hlog]
    simp [List.append_assoc]
  · simp [payload_events]
  · intro envR fuelR stR out hfuel hecho
    rw [hsent] at hecho
    have htok : envR.card (stR.pos + 0) % 256 = 0xFE := by
      rw [hecho 0 (by omega), data_frame_getD_zero]
    have hrx := rcvr_datablock_run envR stR out 512 0 fuelR
      (by intro j hj; omega) htok (by intro j hj; omega) hfuel
    refine ⟨_, _, hrx, ?_⟩
    intro i hi
    simp only [hi, if_true]
    rw [show stR.pos + (0 + 1) + i = stR.pos + (i + 1) by omega, hecho (i + 1) (by omega),
      data_frame_getD_succ p 0xFE i hi]

/-- Witness for C12: the payload `p[i] = i mod 256` sent against `envE`. -/
theorem xmit_rcvr_roundtrip_witness :
    ∃ r st2 frame resp,
      xmit_datablock envE 5 (fun i => i % 256) 0xFE st0 = some (r, st2) ∧
      st2.log = readyE.log ++ frame ++ [Event.xchg 0xFF resp] ∧
      frame.length = 515 ∧
      sent_bytes frame = data_frame (fun i => i % 256) 0xFE ∧
      (∀ (envR : Env) (fuelR : Nat) (stR : State) (out : Nat → Nat), 0 < fuelR →
        (∀ k, k < 515 → envR.card (stR.pos + k) % 256 = (sent_bytes frame).getD k 0) →
        ∃ b sR, rcvr_datablock envR fuelR out 512 stR = some (1, b, sR) ∧
          ∀ i, i < 512 → b i = (fun i => i % 256) i) :=
  xmit_rcvr_roundtrip envE 5 (fun i => i % 256) st0 readyE
    (by intro i _; exact Nat.mod_lt i (by decide)) (by rfl)

/-- C13: with the stop-transmission token 0xFD and the card ready,
`xmit_datablock` exchanges the token and nothing else after the ready wait,
and returns 1; the result is the same for every buffer. -/
theorem xmit_datablock_stop_token (env : Env) (fuel : Nat) (st sr : State)
    (hready : wait_ready env fuel 500 st = some (1, sr)) :
    ∃ st2, (∀ buff, xmit_datablock env fuel buff 0xFD st = some (1, st2)) ∧
      st2.log = sr.log ++ [Event.xchg 0xFD (env.card sr.pos % 256)] ∧
      st2.pos = sr.pos + 1 ∧ st2.cs = sr.cs := by
  refine ⟨(xchg_spi env 0xFD sr).2, ?_, ?_, ?_, ?_⟩
  · intro buff
    unfold xmit_datablock
    rw [hready]
    rfl
  · rw [xchg_spi_snd]
  · rw [xchg_spi_snd]
  · rw [xchg_spi_snd]

/-- Witness for C13: the stop token against `envE`. -/
theorem xmit_datablock_stop_token_witness :
    ∃ st2, (∀ buff, xmit_datablock envE 5 buff 0xFD st0 = some (1, st2)) ∧
      st2.log = readyE.log ++ [Event.xchg 0xFD (envE.card readyE.pos % 256)] ∧
      st2.pos = readyE.pos + 1 ∧ st2.cs = readyE.cs :=
  xmit_datablock_stop_token envE 5 st0 readyE (by rfl)

/-- C14: `xmit_datablock` starts with the ready wait armed to 500.  When the
card has not returned 0xFF by the poll at which the countdown reads zero, it
returns 0 for every token and every buffer, and everything it exchanged is
the 0xFF polls of the wait: neither the token nor a payload byte was sent. -/
theorem xmit_datablock_not_ready (env : Env) (n fuel : Nat) (st : State) (hf : n < fuel)
    (hcont : ∀ j, j < n →
      env.card (st.pos + j) % 256 ≠ 0xFF ∧ elapsed env st.pos (j + 1) < 500)
    (hstop : env.card (st.pos + n) % 256 ≠ 0xFF ∧ 500 ≤ elapsed env st.pos (n + 1)) :
    ∃ st2, wait_ready env fuel 500 st = some (0, st2) ∧
      (∀ buff token, xmit_datablock env fuel buff token st = some (0, st2)) ∧
      st2.log = st.log ++ fillers env st.pos (n + 1) ∧
      st2.pos = st.pos + (n + 1) ∧ st2.cs = st.cs := by
  have hw := wait_ready_stop env n fuel 500 st hf hcont (Or.inr hstop.2)
  rw [if_neg hstop.1] at hw
  refine ⟨_, hw, ?_, ?_, ?_, ?_⟩
  · intro buff token
    unfold xmit_datablock
    rw [hw]
    rfl
  · rw [polls_eq]; rfl
  · rw [polls_eq]; rfl
  · rw [polls_eq]; rfl

set_option maxRecDepth 100000 in
/-- Witness for C14: against `envB` the wait ends unsuccessfully at its fifth poll. -/
theorem xmit_datablock_not_ready_witness :
    ∃ st2, wait_ready envB 5 500 st0 = some (0, st2) ∧
      (∀ buff token, xmit_datablock envB 5 buff token st0 = some (0, st2)) ∧
      st2.log = st0.log ++ fillers envB st0.pos (4 + 1) ∧
      st2.pos = st0.pos + (4 + 1) ∧ st2.cs = st0.cs :=
  xmit_datablock_not_ready envB 4 5 st0 (by decide) (by decide) (by decide)

/-! ## Going idle -/

theorem SPI_transmit_eq (env : Env) (data : Nat) (st : State) :
    SPI_transmit env data st = (xchg_spi env data st).2 := rfl

theorem SPI_receive_eq (env : Env) (st : State) :
    SPI_receive env st = xchg_spi env 0xFF st := rfl

theorem dummy_clocks_eq (env : Env) (st : State) : dummy_clocks env st = polls env 10 st := rfl

/-- The response loop of `SD_sendCommand` entered with `retry + d = 255`. -/
theorem SD_sendCommand_wait_spec (env : Env) (d : Nat) :
    ∀ (retry fuel : Nat) (st : State), retry + d = 255 → d < fuel →
      ∃ w, w ≤ d ∧
        (∀ i, i < w → env.card (st.pos + i) % 256 = 0xFF) ∧
        (env.card (st.pos + w) % 256 ≠ 0xFF ∨ w = d) ∧
        SD_sendCommand_wait env fuel retry st
          = some (env.card (st.pos + w) % 256, polls env (w + 1) st) := by
  induction d with
  | zero =>
    intro retry fuel st hr hf
    obtain ⟨g, rfl⟩ : ∃ g, fuel = g + 1 := ⟨fuel - 1, by omega⟩
    refine ⟨0, le_refl _, by intro i hi; omega, Or.inr rfl, ?_⟩
    have hgt : retry > 0xfe := by omega
    simp only [SD_sendCommand_wait, SPI_receive_eq, xchg_spi_fst, hgt, if_true]
    by_cases hc : env.card st.pos % 256 = 0xFF
    · rw [if_pos hc]
      rfl
    · rw [if_neg hc]
      rfl
  | succ d ih =>
    intro retry fuel st hr hf
    obtain ⟨g, rfl⟩ : ∃ g, fuel = g + 1 := ⟨fuel - 1, by omega⟩
    have hgt : ¬ retry > 0xfe := by omega
    by_cases hc : env.card st.pos % 256 = 0xFF
    · obtain ⟨w, hw, hff, hlast, hrun⟩ :=
        ih ((retry + 1) % 256) g (xchg_spi env 0xFF st).2 (by omega) (by omega)
      have hpos : (xchg_spi env 0xFF st).2.pos = st.pos + 1 := by rw [xchg_spi_snd]
      rw [hpos] at hff hlast hrun
      refine ⟨w + 1, by omega, ?_, ?_, ?_⟩
      · intro i hi
        cases i with
        | zero => exact hc
        | succ i =>
          rw [show st.pos + (i + 1) = st.pos + 1 + i by omega]
          exact hff i (by omega)
      · rw [show st.pos + (w + 1) = st.pos + 1 + w by omega]
        rcases hlast with h | h
        · exact Or.inl h
        · exact Or.inr (by omega)
      · simp only [SD_sendCommand_wait, SPI_receive_eq, xchg_spi_fst, hgt, if_false]
        rw [if_pos hc, hrun, show st.pos + (w + 1) = st.pos + 1 + w by omega,
          polls_succ_left env (w + 1) st]
    · refine ⟨0, by omega, by intro i hi; omega, Or.inl hc, ?_⟩
      simp only [SD_sendCommand_wait, SPI_receive_eq, xchg_spi_fst]
      rw [if_neg hc]
      rfl

/-- The state of `SD_sendCommand` when its response loop starts. -/
theorem SD_sendCommand_packet (env : Env) (cmd arg : Nat) (st : State) :
    SPI_transmit env (if cmd = CMD8 then 0x87 else if cmd = CMD0 then 0x95 else 0x01)
      (SPI_transmit env (arg % 256)
        (SPI_transmit env ((arg >>> 8) % 256)
          (SPI_transmit env ((arg >>> 16) % 256)
            (SPI_transmit env ((arg >>> 24) % 256)
              (SPI_transmit env (cmd ||| 0x40) (SD_CS_Assert st)))))) =
      { pos := st.pos + 6
        Timer1 := st.Timer1 - elapsed env st.pos 6
        cs := true
        log := st.log ++ [Event.csLow] ++ packet_events env cmd arg st.pos } := by
  have hc := crc_value cmd
  simp only [SPI_transmit_eq, xchg_spi_snd, SD_CS_Assert, spi_select, packet_events, elapsed,
    Nat.lor_comm cmd 0x40]
  simp [← hc, Nat.add_assoc, Nat.sub_sub]

/-- The complete run of `SD_sendCommand`: it always returns, after `w + 1`
receives for the response (`w ≤ 255`) and one extra receive. -/
theorem SD_sendCommand_spec (env : Env) (fuel cmd arg : Nat) (st : State) (hfuel : 256 ≤ fuel) :
    ∃ w s, w ≤ 255 ∧
      SD_sendCommand env fuel cmd arg st = some (env.card (st.pos + 6 + w) % 256, s) ∧
      (∀ i, i < w → env.card (st.pos + 6 + i) % 256 = 0xFF) ∧
      (env.card (st.pos + 6 + w) % 256 ≠ 0xFF ∨ w = 255) ∧
      s.pos = st.pos + 6 + (w + 1) + 1 ∧ s.cs = false ∧
      s.log = st.log ++ [Event.csLow] ++ packet_events env cmd arg st.pos ++
        fillers env (st.pos + 6) (w + 1) ++
        [Event.xchg 0xFF (env.card (st.pos + 6 + (w + 1)) % 256), Event.csHigh] := by
  have hpk := SD_sendCommand_packet env cmd arg st
  obtain ⟨w, hw, hff, hlast, hrun⟩ := SD_sendCommand_wait_spec env 255 0 fuel
    { pos := st.pos + 6
      Timer1 := st.Timer1 - elapsed env st.pos 6
      cs := true
      log := st.log ++ [Event.csLow] ++ packet_events env cmd arg st.pos } (by omega) (by omega)
  simp only at hff hlast hrun
  refine ⟨w, SD_CS_Deassart (SPI_receive env (polls env (w + 1)
      { pos := st.pos + 6
        Timer1 := st.Timer1 - elapsed env st.pos 6
        cs := true
        log := st.log ++ [Event.csLow] ++ packet_events env cmd arg st.pos })).2,
    hw, ?_, hff, hlast, ?_, ?_, ?_⟩
  · unfold SD_sendCommand
    simp only
    rw [hpk, hrun]
  · simp [SD_CS_Deassart, spi_deselect, SPI_receive_eq, xchg_spi_snd, polls_eq]
  · simp [SD_CS_Deassart, spi_deselect]
  · simp [SD_CS_Deassart, spi_deselect, SPI_receive_eq, xchg_spi_snd, polls_eq,
      Nat.add_assoc]

/-- One attempt always completes: ten dummy bytes, the CMD0 packet, `w + 1`
receives (`w ≤ 255`), the extra receive. -/
theorem goidle_attempt_spec (env : Env) (fuel : Nat) (st : State) (hfuel : 256 ≤ fuel) :
    ∃ w s, w ≤ 255 ∧
      goidle_attempt env fuel st = some (env.card (st.pos + 16 + w) % 256, s) ∧
      (∀ i, i < w → env.card (st.pos + 16 + i) % 256 = 0xFF) ∧
      (env.card (st.pos + 16 + w) % 256 ≠ 0xFF ∨ w = 255) ∧
      s.pos = st.pos + 18 + w ∧ s.cs = false ∧
      s.log = st.log ++ attempt_trace env st.pos w := by
  obtain ⟨w, s, hw, hrun, hff, hlast, hpos, hcs, hlog⟩ :=
    SD_sendCommand_spec env fuel CMD0 0 (dummy_clocks env st) hfuel
  have hdp : (dummy_clocks env st).pos = st.pos + 10 := by rw [dummy_clocks_eq, polls_eq]
  have hdl : (dummy_clocks env st).log = st.log ++ fillers env st.pos 10 := by
    rw [dummy_clocks_eq, polls_eq]
  rw [hdp] at hrun hff hlast hpos hlog
  rw [hdl] at hlog
  rw [show st.pos + 10 + 6 = st.pos + 16 by omega] at hrun hff hlast hpos hlog
  refine ⟨w, s, hw, hrun, hff, hlast, by omega, hcs, ?_⟩
  rw [hlog]
  simp only [attempt_trace, List.append_assoc]

theorem attempts_succ_left (env : Env) (fuel k : Nat) (st : State) :
    attempts env fuel (k + 1) st =
      match goidle_attempt env fuel st with
      | none => none
      | some (_, s) => attempts env fuel k s := by
  induction k with
  | zero =>
    simp only [attempts]
  | succ k ih =>
    rw [attempts, ih]
    cases h : goidle_attempt env fuel st with
    | none => rfl
    | some x => simp only [attempts]

/-- Every attempt completes, and the attempts made so far put one
`attempt_trace` each on the bus. -/
theorem attempts_spec (env : Env) (fuel : Nat) (hfuel : 256 ≤ fuel) (k : Nat) :
    ∀ st : State, ∃ (r : Nat) (s : State) (traces : List (List Event)),
      attempts env fuel k st = some (r, s) ∧ s.cs = false ∧
      traces.length = k + 1 ∧ s.log = st.log ++ traces.flatten ∧
      (∀ t, t ∈ traces → ∃ p w, w ≤ 255 ∧ t = attempt_trace env p w) := by
  induction k with
  | zero =>
    intro st
    obtain ⟨w, s, hw, hrun, _, _, _, hcs, hlog⟩ := goidle_attempt_spec env fuel st hfuel
    refine ⟨env.card (st.pos + 16 + w) % 256, s, [attempt_trace env st.pos w], hrun, hcs, rfl,
      by simpa using hlog, ?_⟩
    intro t ht
    simp only [List.mem_singleton] at ht
    exact ⟨st.pos, w, hw, ht⟩
  | succ k ih =>
    intro st
    obtain ⟨r, s, traces, hrun, _, hlen, hlog, htr⟩ := ih st
    obtain ⟨w, s2, hw, hrun2, _, _, _, hcs2, hlog2⟩ := goidle_attempt_spec env fuel s hfuel
    refine ⟨env.card (s.pos + 16 + w) % 256, s2, traces ++ [attempt_trace env s.pos w],
      ?_, hcs2, ?_, ?_, ?_⟩
    · rw [attempts, hrun]
      exact hrun2
    · simp [hlen]
    · rw [hlog2, hlog]
      simp [List.append_assoc]
    · intro t ht
      rcases List.mem_append.mp ht with h | h
      · exact htr t h
      · simp only [List.mem_singleton] at h
        exact ⟨s.pos, w, hw, h⟩

theorem attempt_resp_zero (env : Env) (fuel r : Nat) (st s : State)
    (h : goidle_attempt env fuel st = some (r, s)) :
    attempt_resp env fuel 0 st = some r := by
  simp [attempt_resp, attempts, h]

theorem attempt_resp_succ (env : Env) (fuel k r : Nat) (st s : State)
    (h : goidle_attempt env fuel st = some (r, s)) :
    attempt_resp env fuel (k + 1) st = attempt_resp env fuel k s := by
  simp [attempt_resp, attempts_succ_left, h]

theorem SD_GoIdleState_loop_succ (env : Env) (fuel n retry r : Nat) (st s : State)
    (h : goidle_attempt env fuel st = some (r, s)) :
    SD_GoIdleState_loop env fuel (n + 1) retry st =
      if (retry + 1) % 256 > 0xfe then some (0, s)
      else if r ≠ 0x01 then SD_GoIdleState_loop env fuel n ((retry + 1) % 256) s
      else some (1, SD_CS_Deassart s) := by
  unfold goidle_attempt at h
  simp only [SD_GoIdleState_loop, h]

/-- The loop of `SD_GoIdleState` when attempt `k + 1` from here is the first
one answered with 0x01 and `retry` is still at most 254 after it. -/
theorem SD_GoIdleState_loop_success (env : Env) (fuel : Nat) (k : Nat) :
    ∀ (n retry : Nat) (st sk : State), k < n → retry + k + 1 ≤ 254 →
      (∀ j, j < k → attempt_resp env fuel j st ≠ some 1) →
      attempts env fuel k st = some (1, sk) →
      SD_GoIdleState_loop env fuel n retry st = some (1, SD_CS_Deassart sk) := by
  induction k with
  | zero =>
    intro n retry st sk hn hr _ hat
    obtain ⟨g, rfl⟩ : ∃ g, n = g + 1 := ⟨n - 1, by omega⟩
    have hat2 : goidle_attempt env fuel st = some (1, sk) := hat
    rw [SD_GoIdleState_loop_succ env fuel g retry 1 st sk hat2,
      if_neg (by omega), if_neg (by simp)]
  | succ k ih =>
    intro n retry st sk hn hr hbefore hat
    obtain ⟨g, rfl⟩ : ∃ g, n = g + 1 := ⟨n - 1, by omega⟩
    rw [attempts_succ_left] at hat
    cases hfirst : goidle_attempt env fuel st with
    | none => rw [hfirst] at hat; simp at hat
    | some x =>
      obtain ⟨r, s⟩ := x
      rw [hfirst] at hat
      simp only at hat
      have hr1 : r ≠ 1 := by
        have := hbefore 0 (by omega)
        rw [attempt_resp_zero env fuel r st s hfirst] at this
        simpa using this
      rw [SD_GoIdleState_loop_succ env fuel g retry r st s hfirst,
        if_neg (by omega), if_pos hr1]
      have hmod : (retry + 1) % 256 = retry + 1 := by omega
      rw [hmod]
      exact ih g (retry + 1) s sk (by omega) (by omega)
        (by
          intro j hj
          have := hbefore (j + 1) (by omega)
          rw [attempt_resp_succ env fuel j r st s hfirst] at this
          exact this)
        hat

/-- The loop of `SD_GoIdleState` when none of the attempts before the one
that brings `retry` to 255 is answered with 0x01: the answer to that last
attempt is not looked at. -/
theorem SD_GoIdleState_loop_fail (env : Env) (fuel : Nat) (k : Nat) :
    ∀ (n retry r : Nat) (st sk : State), k < n → retry + k + 1 = 255 →
      (∀ j, j < k → attempt_resp env fuel j st ≠ some 1) →
      attempts env fuel k st = some (r, sk) →
      SD_GoIdleState_loop env fuel n retry st = some (0, sk) := by
  induction k with
  | zero =>
    intro n retry r st sk hn hr _ hat
    obtain ⟨g, rfl⟩ : ∃ g, n = g + 1 := ⟨n - 1, by omega⟩
    have hat2 : goidle_attempt env fuel st = some (r, sk) := hat
    rw [SD_GoIdleState_loop_succ env fuel g retry r st sk hat2, if_pos (by omega)]
  | succ k ih =>
    intro n retry r st sk hn hr hbefore hat
    obtain ⟨g, rfl⟩ : ∃ g, n = g + 1 := ⟨n - 1, by omega⟩
    rw [attempts_succ_left] at hat
    cases hfirst : goidle_attempt env fuel st with
    | none => rw [hfirst] at hat; simp at hat
    | some x =>
      obtain ⟨r1, s⟩ := x
      rw [hfirst] at hat
      simp only at hat
      have hr1 : r1 ≠ 1 := by
        have := hbefore 0 (by omega)
        rw [attempt_resp_zero env fuel r1 st s hfirst] at this
        simpa using this
      rw [SD_GoIdleState_loop_succ env fuel g retry r1 st s hfirst,
        if_neg (by omega), if_pos hr1]
      have hmod : (retry + 1) % 256 = retry + 1 := by omega
      rw [hmod]
      exact ih g (retry + 1) r s sk (by omega) (by omega)
        (by
          intro j hj
          have := hbefore (j + 1) (by omega)
          rw [attempt_resp_succ env fuel j r1 st s hfirst] at this
          exact this)
        hat

/-- Attempts against a card that answers right after the packet (never
0xFF there): attempt `k + 1` occupies exchanges `18 k .. 18 k + 17` from the
start and its response is the byte of exchange `18 k + 16`. -/
theorem attempts_prompt (env : Env) (fuel : Nat) (hfuel : 256 ≤ fuel) (k : Nat) :
    ∀ st : State, (∀ i, i ≤ k → env.card (st.pos + 18 * i + 16) % 256 ≠ 0xFF) →
      ∃ s, attempts env fuel k st = some (env.card (st.pos + 18 * k + 16) % 256, s) ∧
        s.pos = st.pos + 18 * (k + 1) := by
  induction k with
  | zero =>
    intro st hcard
    obtain ⟨w, s, _, hrun, hff, _, hpos, _, _⟩ := goidle_attempt_spec env fuel st hfuel
    have hw : w = 0 := by
      by_contra hne
      have h0 := hff 0 (by omega)
      exact hcard 0 (le_refl _) (by simpa using h0)
    subst hw
    exact ⟨s, by simpa [attempts] using hrun, by omega⟩
  | succ k ih =>
    intro st hcard
    obtain ⟨s, hrun, hpos⟩ := ih st (fun i hi => hcard i (by omega))
    obtain ⟨w, s2, _, hrun2, hff, _, hpos2, _, _⟩ := goidle_attempt_spec env fuel s hfuel
    have hw : w = 0 := by
      by_contra hne
      have h0 := hff 0 (by omega)
      rw [hpos] at h0
      exact hcard (k + 1) (le_refl _)
        (by rw [show st.pos + 18 * (k + 1) + 16 + 0 = st.pos + 18 * (k + 1) + 16 by omega] at h0
            exact h0)
    subst hw
    refine ⟨s2, ?_, by omega⟩
    rw [attempts, hrun]
    simp only
    rw [hrun2, hpos]

theorem attempts_of_resp (env : Env) (fuel k r : Nat) (st : State)
    (h : attempt_resp env fuel k st = some r) : ∃ s, attempts env fuel k st = some (r, s) := by
  unfold attempt_resp at h
  cases hx : attempts env fuel k st with
  | none => rw [hx] at h; simp at h
  | some x =>
    obtain ⟨r2, s⟩ := x
    rw [hx] at h
    simp only [Option.map_some', Option.some.injEq] at h
    exact ⟨s, by rw [h]⟩

/-- C15 (failing input): against `envK` each of the CMD0 attempts 1 to 254 is
answered with 0x00 and attempt 255 is answered with 0x01, yet
`SD_GoIdleState` returns 0 (failure): the answer to the attempt that brings
`retry` to 255 is never looked at. -/
theorem SD_GoIdleState_attempt_255_ignored :
    (∀ j, j < 254 → attempt_resp envK 256 j (SD_CS_Assert st0) = some 0) ∧
    attempt_resp envK 256 254 (SD_CS_Assert st0) = some 1 ∧
    ∃ s, SD_GoIdleState envK 256 st0 = some (0, s) := by
  have hcard : ∀ i, envK.card ((SD_CS_Assert st0).pos + 18 * i + 16) % 256 ≠ 0xFF := by
    intro i
    simp only [envK]
    split <;> decide
  have hresp : ∀ j, attempt_resp envK 256 j (SD_CS_Assert st0)
      = some (envK.card ((SD_CS_Assert st0).pos + 18 * j + 16) % 256) := by
    intro j
    obtain ⟨s, hs, _⟩ := attempts_prompt envK 256 (le_refl _) j (SD_CS_Assert st0)
      (fun i _ => hcard i)
    simp [attempt_resp, hs]
  have hbefore : ∀ j, j < 254 → attempt_resp envK 256 j (SD_CS_Assert st0) = some 0 := by
    intro j hj
    rw [hresp j]
    have hne : (SD_CS_Assert st0).pos + 18 * j + 16 ≠ 18 * 254 + 16 := by
      have : (SD_CS_Assert st0).pos = 0 := rfl
      omega
    simp [envK, hne]
  have hlast : attempt_resp envK 256 254 (SD_CS_Assert st0) = some 1 := by
    rw [hresp 254]
    rfl
  obtain ⟨sk, hsk⟩ := attempts_of_resp envK 256 254 1 _ hlast
  refine ⟨hbefore, hlast, sk, ?_⟩
  exact SD_GoIdleState_loop_fail envK 256 254 256 0 1 (SD_CS_Assert st0) sk (by decide)
    (by decide) (fun j hj => by rw [hbefore j hj]; decide) hsk

/-- C16: when the first CMD0 answered with 0x01 is attempt number `k + 1`
with `k + 1 ≤ 254`, `SD_GoIdleState` returns 1, and between the chip-select
low at entry and the chip-select high at exit the bus saw exactly `k + 1`
attempt traces, each made of ten 0xFF bytes, chip-select low, the CMD0
packet `40 00 00 00 00 95`, the receives for the response, one extra receive
and chip-select high. -/
theorem SD_GoIdleState_first_idle (env : Env) (fuel k : Nat) (st : State)
    (hfuel : 256 ≤ fuel) (hk : k < 254)
    (hbefore : ∀ j, j < k → attempt_resp env fuel j (SD_CS_Assert st) ≠ some 1)
    (hat : attempt_resp env fuel k (SD_CS_Assert st) = some 1) :
    ∃ (s : State) (traces : List (List Event)),
      SD_GoIdleState env fuel st = some (1, s) ∧
      traces.length = k + 1 ∧
      s.log = st.log ++ [Event.csLow] ++ traces.flatten ++ [Event.csHigh] ∧
      (∀ t, t ∈ traces → ∃ p w, w ≤ 255 ∧
        t = fillers env p 10 ++ [Event.csLow] ++
          [Event.xchg 0x40 (env.card (p + 10) % 256),
           Event.xchg 0 (env.card (p + 10 + 1) % 256),
           Event.xchg 0 (env.card (p + 10 + 2) % 256),
           Event.xchg 0 (env.card (p + 10 + 3) % 256),
           Event.xchg 0 (env.card (p + 10 + 4) % 256),
           Event.xchg 0x95 (env.card (p + 10 + 5) % 256)] ++
          fillers env (p + 16) (w + 1) ++
          [Event.xchg 0xFF (env.card (p + 16 + (w + 1)) % 256), Event.csHigh]) := by
  obtain ⟨sk, hsk⟩ := attempts_of_resp env fuel k 1 _ hat
  obtain ⟨r, s, traces, hrun, _, hlen, hlog, htr⟩ :=
    attempts_spec env fuel hfuel k (SD_CS_Assert st)
  rw [hsk] at hrun
  simp only [Option.some.injEq, Prod.mk.injEq] at hrun
  refine ⟨SD_CS_Deassart sk, traces, ?_, hlen, ?_, ?_⟩
  · exact SD_GoIdleState_loop_success env fuel k fuel 0 (SD_CS_Assert st) sk (by omega)
      (by omega) hbefore hsk
  · rw [hrun.2]
    simp only [SD_CS_Deassart, spi_deselect, hlog, SD_CS_Assert, spi_select, List.append_assoc]
  · intro t ht
    obtain ⟨p, w, hw, hpw⟩ := htr t ht
    exact ⟨p, w, hw, hpw⟩

set_option maxRecDepth 100000 in
/-- Witness for C16: against `envF` the fifth CMD0 is the first one answered with 0x01. -/
theorem SD_GoIdleState_first_idle_witness :
    ∃ (s : State) (traces : List (List Event)),
      SD_GoIdleState envF 256 st0 = some (1, s) ∧
      traces.length = 4 + 1 ∧
      s.log = st0.log ++ [Event.csLow] ++ traces.flatten ++ [Event.csHigh] ∧
      (∀ t, t ∈ traces → ∃ p w, w ≤ 255 ∧
        t = fillers envF p 10 ++ [Event.csLow] ++
          [Event.xchg 0x40 (envF.card (p + 10) % 256),
           Event.xchg 0 (envF.card (p + 10 + 1) % 256),
           Event.xchg 0 (envF.card (p + 10 + 2) % 256),
           Event.xchg 0 (envF.card (p + 10 + 3) % 256),
           Event.xchg 0 (envF.card (p + 10 + 4) % 256),
           Event.xchg 0x95 (envF.card (p + 10 + 5) % 256)] ++
          fillers envF (p + 16) (w + 1) ++
          [Event.xchg 0xFF (envF.card (p + 16 + (w + 1)) % 256), Event.csHigh]) :=
  SD_GoIdleState_first_idle envF 256 4 st0 (by decide) (by decide) (by decide) (by decide)

/-! ## Countdowns -/

theorem TimeDelay_Decrement_iterate (n : Nat) (hn : n ≤ 32767) (j : Nat) (hj : j ≤ n) :
    Nat.iterate TimeDelay_Decrement j (n : Int) = (n : Int) - (j : Int) := by
  induction j with
  | zero => simp
  | succ j ih =>
    rw [Function.iterate_succ_apply', ih (by omega)]
    unfold TimeDelay_Decrement wrap_int
    rw [if_pos (by omega)]
    omega

theorem TimeDelay_Decrement_zero_iterate (j : Nat) :
    Nat.iterate TimeDelay_Decrement j 0 = 0 := by
  induction j with
  | zero => rfl
  | succ j ih =>
    rw [Function.iterate_succ_apply', ih]
    rfl

theorem disk_timerproc_timers_iterate (j a b : Nat) :
    Nat.iterate disk_timerproc_timers j (a, b) =
      (Nat.iterate disk_timerproc j a, Nat.iterate disk_timerproc j b) := by
  induction j with
  | zero => rfl
  | succ j ih =>
    rw [Function.iterate_succ_apply', ih, Function.iterate_succ_apply',
      Function.iterate_succ_apply']
    rfl

/-- C17: a countdown armed to `n > 0` and decremented once per tick is
non-zero after fewer than `n` ticks, zero after `n` ticks and zero after any
larger number of ticks, and a tick on a zero counter leaves it at zero.  This
holds for `Timer1` and `Timer2` under `disk_timerproc` for every `n` that
fits the 16-bit `WORD` through which the counter is decremented, and for
`TimeDelay` under `TimeDelay_Decrement` when `n` is a positive 16-bit `int`. -/
theorem countdown_reaches_zero_and_stays (n : Nat) (hn : 0 < n) (hword : n < 65536) :
    Nat.iterate disk_timerproc 0 n ≠ 0 ∧
    (∀ j, j < n → Nat.iterate disk_timerproc j n ≠ 0) ∧
    Nat.iterate disk_timerproc n n = 0 ∧
    (∀ j, n ≤ j → Nat.iterate disk_timerproc j n = 0) ∧
    disk_timerproc 0 = 0 ∧
    (∀ j m, j < n → (Nat.iterate disk_timerproc_timers j (n, m)).1 ≠ 0 ∧
      (Nat.iterate disk_timerproc_timers j (m, n)).2 ≠ 0) ∧
    (∀ j m, n ≤ j → (Nat.iterate disk_timerproc_timers j (n, m)).1 = 0 ∧
      (Nat.iterate disk_timerproc_timers j (m, n)).2 = 0) ∧
    disk_timerproc_timers (0, 0) = (0, 0) ∧
    (n ≤ 32767 →
      (∀ j, j < n → Nat.iterate TimeDelay_Decrement j (n : Int) ≠ 0) ∧
      Nat.iterate TimeDelay_Decrement n (n : Int) = 0 ∧
      (∀ j, n ≤ j → Nat.iterate TimeDelay_Decrement j (n : Int) = 0) ∧
      TimeDelay_Decrement 0 = 0) := by
  refine ⟨?_, ?_, ?_, ?_, rfl, ?_, ?_, rfl, ?_⟩
  · rw [disk_timerproc_iterate 0 n hword]
    omega
  · intro j hj
    rw [disk_timerproc_iterate j n hword]
    omega
  · rw [disk_timerproc_iterate n n hword]
    omega
  · intro j hj
    rw [disk_timerproc_iterate j n hword]
    omega
  · intro j m hj
    rw [disk_timerproc_timers_iterate, disk_timerproc_timers_iterate]
    simp only
    rw [disk_timerproc_iterate j n hword]
    exact ⟨by omega, by omega⟩
  · intro j m hj
    rw [disk_timerproc_timers_iterate, disk_timerproc_timers_iterate]
    simp only
    rw [disk_timerproc_iterate j n hword]
    exact ⟨by omega, by omega⟩
  · intro h16
    refine ⟨?_, ?_, ?_, rfl⟩
    · intro j hj
      rw [TimeDelay_Decrement_iterate n h16 j (by omega)]
      omega
    · rw [TimeDelay_Decrement_iterate n h16 n (le_refl _)]
      omega
    · intro j hj
      obtain ⟨d, rfl⟩ : ∃ d, j = d + n := ⟨j - n, by omega⟩
      rw [Function.iterate_add_apply, TimeDelay_Decrement_iterate n h16 n (le_refl _)]
      rw [show (n : Int) - (n : Int) = 0 by omega]
      exact TimeDelay_Decrement_zero_iterate d

/-- Witness for C17: a countdown armed to 3. -/
theorem countdown_reaches_zero_and_stays_witness :
    Nat.iterate disk_timerproc 0 3 ≠ 0 ∧
    (∀ j, j < 3 → Nat.iterate disk_timerproc j 3 ≠ 0) ∧
    Nat.iterate disk_timerproc 3 3 = 0 ∧
    (∀ j, 3 ≤ j → Nat.iterate disk_timerproc j 3 = 0) ∧
    disk_timerproc 0 = 0 ∧
    (∀ j m, j < 3 → (Nat.iterate disk_timerproc_timers j (3, m)).1 ≠ 0 ∧
      (Nat.iterate disk_timerproc_timers j (m, 3)).2 ≠ 0) ∧
    (∀ j m, 3 ≤ j → (Nat.iterate disk_timerproc_timers j (3, m)).1 = 0 ∧
      (Nat.iterate disk_timerproc_timers j (m, 3)).2 = 0) ∧
    disk_timerproc_timers (0, 0) = (0, 0) ∧
    (3 ≤ 32767 →
      (∀ j, j < 3 → Nat.iterate TimeDelay_Decrement j ((3 : Nat) : Int) ≠ 0) ∧
      Nat.iterate TimeDelay_Decrement 3 ((3 : Nat) : Int) = 0 ∧
      (∀ j, 3 ≤ j → Nat.iterate TimeDelay_Decrement j ((3 : Nat) : Int) = 0) ∧
      TimeDelay_Decrement 0 = 0) :=
  countdown_reaches_zero_and_stays 3 (by decide) (by decide)

/-! ## `SD_Init`, `SD_BuildDirectory`, return value of `SD_GoIdleState` -/

/-- C18: with `status` the value `SD_GoIdleState` returned: if it is not 1,
`SD_Init` returns -255 and made no FatFs call; if it is 1 and `f_mount`
returns `res` other than `FR_OK`, `SD_Init` returns `-res` after that one
call; if `f_mount` returns `FR_OK`, `SD_Init` returns what
`SD_BuildDirectory("DIR.TXT")` returns.  A card none of whose first 254 CMD0
attempts is answered with 0x01 gets -255 and no FatFs call. -/
theorem SD_Init_returns (env : Env) (fat : FatEnv) (fuel status : Nat) (st s1 : State)
    (hgo : SD_GoIdleState env fuel st = some (status, s1)) :
    (status ≠ 1 → SD_Init env fat fuel st = some (-255, s1, [])) ∧
    (status = 1 → fat.mount ≠ FR_OK →
      SD_Init env fat fuel st = some (-(fat.mount : Int), s1, [FatCall.f_mount])) ∧
    (status = 1 → fat.mount = FR_OK → ∀ size calls,
      SD_BuildDirectory fat fuel DIR_TXT [FatCall.f_mount] = some (size, calls) →
      SD_Init env fat fuel st = some (size, s1, calls)) ∧
    (256 ≤ fuel → (∀ k, k < 254 → attempt_resp env fuel k (SD_CS_Assert st) ≠ some 1) →
      status = 0 ∧ SD_Init env fat fuel st = some (-255, s1, [])) := by
  refine ⟨?_, ?_, ?_, ?_⟩
  · intro h
    simp [SD_Init, hgo, h]
  · intro h hm
    simp [SD_Init, hgo, h, hm]
  · intro h hm size calls hb
    simp [SD_Init, hgo, h, hm, hb]
  · intro hfuel hnone
    obtain ⟨r, sk, _, hrun, _⟩ := attempts_spec env fuel hfuel 254 (SD_CS_Assert st)
    have hfail := SD_GoIdleState_loop_fail env fuel 254 fuel 0 r (SD_CS_Assert st) sk
      (by omega) (by omega) hnone hrun
    unfold SD_GoIdleState at hgo
    rw [hfail] at hgo
    simp only [Option.some.injEq, Prod.mk.injEq] at hgo
    have hs : status = 0 := hgo.1.symm
    refine ⟨hs, ?_⟩
    simp [SD_Init, SD_GoIdleState, hfail, ← hgo.2]

set_option maxRecDepth 100000 in
/-- Witness for C18: against `envI` the card goes idle at once and FatFs
mounts; the value of `SD_BuildDirectory` against `fatX` is returned. -/
theorem SD_Init_returns_witness :
    SD_Init envI fatX 256 st0 =
      some (30, idleI,
            [FatCall.f_mount, FatCall.f_open DIR_TXT, FatCall.f_opendir, FatCall.f_readdir,
             FatCall.f_write, FatCall.f_readdir, FatCall.f_close]) :=
  (SD_Init_returns envI fatX 256 1 st0 idleI (by rfl)).2.2.1 rfl rfl 30
    [FatCall.f_mount, FatCall.f_open DIR_TXT, FatCall.f_opendir, FatCall.f_readdir,
     FatCall.f_write, FatCall.f_readdir, FatCall.f_close] (by rfl)

/-- C19 (failing input): against `fatX`, `f_open`, `f_opendir`, the first
`f_readdir`, the `f_write` (30 bytes) and `f_close` return `FR_OK`, and the
second `f_readdir` returns the error code 1.  `SD_BuildDirectory` leaves the
loop, closes the file and returns 30, not -1. -/
theorem SD_BuildDirectory_readdir_error_lost :
    (fatX.readdir 1).1 = 1 ∧ (fatX.readdir 1).1 ≠ FR_OK ∧
    SD_BuildDirectory fatX 3 DIR_TXT [] =
      some (30, [FatCall.f_open DIR_TXT, FatCall.f_opendir, FatCall.f_readdir,
                 FatCall.f_write, FatCall.f_readdir, FatCall.f_close]) := by
  refine ⟨rfl, by decide, ?_⟩
  rfl

set_option maxRecDepth 100000 in
/-- C20 (counterexample): against `envI` the first CMD0 is answered with 0x01,
so the card is idle, and `SD_GoIdleState` returns 1, not 0; against `envN`
every CMD0 is answered with 0x05 and `SD_GoIdleState` returns 0, not the
response byte 0x05. -/
theorem SD_GoIdleState_return_value_counterexample :
    (attempt_resp envI 256 0 (SD_CS_Assert st0) = some 1 ∧
      (SD_GoIdleState envI 256 st0).map (fun r => r.1) = some 1 ∧
      (SD_GoIdleState envI 256 st0).map (fun r => r.1) ≠ some 0) ∧
    ((∀ j, attempt_resp envN 256 j (SD_CS_Assert st0) = some 5) ∧
      (SD_GoIdleState envN 256 st0).map (fun r => r.1) = some 0 ∧
      (SD_GoIdleState envN 256 st0).map (fun r => r.1) ≠ some 5) := by
  refine ⟨⟨by rfl, by rfl, by decide⟩, ?_⟩
  have hresp : ∀ j, attempt_resp envN 256 j (SD_CS_Assert st0) = some 5 := by
    intro j
    obtain ⟨s, hs, _⟩ := attempts_prompt envN 256 (le_refl _) j (SD_CS_Assert st0)
      (fun i _ => by simp [envN])
    have hc : envN.card ((SD_CS_Assert st0).pos + 18 * j + 16) % 256 = 5 := rfl
    rw [hc] at hs
    simp [attempt_resp, hs]
  obtain ⟨sk, hsk⟩ := attempts_of_resp envN 256 254 5 _ (hresp 254)
  have hfail := SD_GoIdleState_loop_fail envN 256 254 256 0 5 (SD_CS_Assert st0) sk
    (by decide) (by decide) (fun j _ => by rw [hresp j]; decide) hsk
  have hrun : SD_GoIdleState envN 256 st0 = some (0, sk) := hfail
  refine ⟨hresp, ?_, ?_⟩
  · rw [hrun]
    rfl
  · rw [hrun]
    simp

/-- C20 (amended): `SD_GoIdleState` always returns, and the value is 0 or 1.
It returns 1 when one of the CMD0 attempts 1 to 254 is answered with 0x01 (the
card was put into the idle state), and it returns 0 when none of its CMD0
attempts, the 1st through the 255th, is answered with 0x01, whatever the
response bytes were. -/
theorem SD_GoIdleState_returns_flag (env : Env) (fuel : Nat) (st : State)
    (hfuel : 256 ≤ fuel) :
    ∃ r s, SD_GoIdleState env fuel st = some (r, s) ∧
      (r = 0 ∨ r = 1) ∧
      ((∃ k, k < 254 ∧ attempt_resp env fuel k (SD_CS_Assert st) = some 1) → r = 1) ∧
      ((∀ k, k < 255 → attempt_resp env fuel k (SD_CS_Assert st) ≠ some 1) → r = 0) := by
  by_cases hex : ∃ k, k < 254 ∧ attempt_resp env fuel k (SD_CS_Assert st) = some 1
  · classical
    have hk := Nat.find_spec hex
    have hmin : ∀ j, j < Nat.find hex →
        attempt_resp env fuel j (SD_CS_Assert st) ≠ some 1 := by
      intro j hj hresp
      exact Nat.find_min hex hj ⟨by omega, hresp⟩
    obtain ⟨sk, hsk⟩ := attempts_of_resp env fuel (Nat.find hex) 1 _ hk.2
    have hrun := SD_GoIdleState_loop_success env fuel (Nat.find hex) fuel 0
      (SD_CS_Assert st) sk (by omega) (by omega) hmin hsk
    refine ⟨1, SD_CS_Deassart sk, hrun, Or.inr rfl, fun _ => rfl, ?_⟩
    intro hall
    obtain ⟨k, hk1, hk2⟩ := hex
    exact absurd hk2 (hall k (by omega))
  · have hall : ∀ k, k < 254 → attempt_resp env fuel k (SD_CS_Assert st) ≠ some 1 := by
      intro k hk hresp
      exact hex ⟨k, hk, hresp⟩
    obtain ⟨r, sk, _, hrun, _⟩ := attempts_spec env fuel hfuel 254 (SD_CS_Assert st)
    have hfail := SD_GoIdleState_loop_fail env fuel 254 fuel 0 r (SD_CS_Assert st) sk
      (by omega) (by omega) hall hrun
    exact ⟨0, sk, hfail, Or.inl rfl, fun h => absurd h hex, fun _ => rfl⟩

/-- Witness for C20 (amended): `SD_GoIdleState` against `envI`. -/
theorem SD_GoIdleState_returns_flag_witness :
    ∃ r s, SD_GoIdleState envI 256 st0 = some (r, s) ∧
      (r = 0 ∨ r = 1) ∧
      ((∃ k, k < 254 ∧ attempt_resp envI 256 k (SD_CS_Assert st0) = some 1) → r = 1) ∧
      ((∀ k, k < 255 → attempt_resp envI 256 k (SD_CS_Assert st0) ≠ some 1) → r = 0) :=
  SD_GoIdleState_returns_flag envI 256 st0 (by decide)

/-! ## Chip-select at return, early failure of the block receive -/

/-- Where `send_cmd_body` leaves chip-select. -/
theorem send_cmd_body_cs (env : Env) (fuel cmd arg res : Nat) (st s : State)
    (h : send_cmd_body env fuel cmd arg st = some (res, s)) :
    (cmd = CMD12 → s.cs = st.cs) ∧
    (cmd ≠ CMD12 → s.cs = true ∨ (s.cs = false ∧ res = 0xFF)) := by
  obtain ⟨ok, s1, hsel, h0, h1⟩ := send_cmd_body_inv env fuel cmd arg res st s h
  constructor
  · intro h12
    rw [if_neg (by simpa using h12)] at hsel
    simp only [Option.some.injEq, Prod.mk.injEq] at hsel
    obtain ⟨m, _, _, hs⟩ := h1 (by omega)
    rw [hs, polls_eq, packet_state_cs, ← hsel.2]
  · intro h12
    rw [if_pos h12] at hsel
    obtain ⟨n, hn⟩ := select_log env fuel _ ok s1 hsel
    rcases hn with ⟨hok, hcs, _⟩ | ⟨hok, hcs, _⟩
    · left
      obtain ⟨m, _, _, hs⟩ := h1 (by omega)
      rw [hs, polls_eq, packet_state_cs]
      exact hcs
    · right
      obtain ⟨hr, hs⟩ := h0 hok
      rw [hs]
      exact ⟨hcs, hr⟩

/-- Where `send_cmd` leaves chip-select for a command other than CMD12. -/
theorem send_cmd_cs (env : Env) (f cmd arg res : Nat) (st s : State) (h12 : cmd ≠ CMD12)
    (h : send_cmd env f cmd arg st = some (res, s)) :
    s.cs = true ∨ (s.cs = false ∧ res = 0xFF) := by
  cases f with
  | zero => simp [send_cmd] at h
  | succ g =>
    by_cases hbit : cmd &&& 0x80 = 0
    · rw [send_cmd_plain env g cmd arg st hbit] at h
      exact (send_cmd_body_cs env g cmd arg res st s h).2 h12
    · rw [send_cmd_app env g cmd arg st hbit] at h
      split at h
      · simp at h
      · rename_i r55 s55 h55
        cases g with
        | zero => simp [send_cmd] at h55
        | succ k =>
          rw [send_cmd_cmd55] at h55
          have hc55 := (send_cmd_body_cs env k CMD55 0 r55 st s55 h55).2 (by decide)
          by_cases hgt : r55 > 1
          · rw [if_pos hgt] at h
            simp only [Option.some.injEq, Prod.mk.injEq] at h
            rw [← h.1, ← h.2]
            exact hc55
          · rw [if_neg hgt] at h
            have hs55 : s55.cs = true := by
              rcases hc55 with hc | ⟨_, hr⟩
              · exact hc
              · omega
            have hb := send_cmd_body_cs env (k + 1) (cmd &&& 0x7F) arg res s55 s h
            by_cases hm : cmd &&& 0x7F = CMD12
            · left
              rw [hb.1 hm, hs55]
            · exact hb.2 hm

/-- The run of `SD_GoIdleState` always ends, with chip-select high. -/
theorem SD_GoIdleState_total_cs (env : Env) (fuel : Nat) (st : State) (hfuel : 256 ≤ fuel) :
    ∃ r s, SD_GoIdleState env fuel st = some (r, s) ∧ s.cs = false := by
  by_cases hex : ∃ k, k < 254 ∧ attempt_resp env fuel k (SD_CS_Assert st) = some 1
  · classical
    have hk := Nat.find_spec hex
    have hmin : ∀ j, j < Nat.find hex →
        attempt_resp env fuel j (SD_CS_Assert st) ≠ some 1 := by
      intro j hj hresp
      exact Nat.find_min hex hj ⟨by omega, hresp⟩
    obtain ⟨sk, hsk⟩ := attempts_of_resp env fuel (Nat.find hex) 1 _ hk.2
    exact ⟨1, SD_CS_Deassart sk,
      SD_GoIdleState_loop_success env fuel (Nat.find hex) fuel 0 (SD_CS_Assert st) sk
        (by omega) (by omega) hmin hsk, rfl⟩
  · have hall : ∀ k, k < 254 → attempt_resp env fuel k (SD_CS_Assert st) ≠ some 1 := by
      intro k hk hresp
      exact hex ⟨k, hk, hresp⟩
    obtain ⟨r, sk, _, hrun, hcs, _⟩ := attempts_spec env fuel hfuel 254 (SD_CS_Assert st)
    exact ⟨0, sk, SD_GoIdleState_loop_fail env fuel 254 fuel 0 r (SD_CS_Assert st) sk
      (by omega) (by omega) hall hrun, hcs⟩

set_option maxRecDepth 100000 in
/-- C21 (counterexample): against `envA`, `send_cmd(CMD0, 0)` gets the
response 0x01 and returns with chip-select still asserted. -/
theorem send_cmd_leaves_cs_asserted :
    (send_cmd envA 11 CMD0 0 st0).map (fun r => (r.1, r.2.cs)) = some (1, true) := by
  rfl

/-- C21 (amended): `SD_sendCommand` and `SD_GoIdleState` always return, with
chip-select deasserted.  `send_cmd` for a command other than CMD12 returns
with chip-select deasserted only together with the value 0xFF of a selection
timeout, and does so whenever its selection times out; when the selection
succeeds it returns with chip-select asserted.  For CMD12, which makes no
selection, it leaves chip-select as it was at entry. -/
theorem chip_select_at_return (env : Env) (fuel cmd arg : Nat) (st : State)
    (hfuel : 256 ≤ fuel) :
    (∃ r s, SD_sendCommand env fuel cmd arg st = some (r, s) ∧ s.cs = false) ∧
    (∃ r s, SD_GoIdleState env fuel st = some (r, s) ∧ s.cs = false) ∧
    (cmd ≠ CMD12 → ∀ f res s, send_cmd env f cmd arg st = some (res, s) →
      s.cs = true ∨ (s.cs = false ∧ res = 0xFF)) ∧
    (cmd ≠ CMD12 → cmd < 0x80 → ∀ s1, select env fuel (deselect env st) = some (0, s1) →
      send_cmd env (fuel + 1) cmd arg st = some (0xFF, s1) ∧ s1.cs = false) ∧
    (cmd ≠ CMD12 → cmd < 0x80 → ∀ s1, select env fuel (deselect env st) = some (1, s1) →
      ∃ res s, send_cmd env (fuel + 1) cmd arg st = some (res, s) ∧ s.cs = true) ∧
    (∃ res s, send_cmd env (fuel + 1) CMD12 arg st = some (res, s) ∧ s.cs = st.cs) := by
  refine ⟨?_, SD_GoIdleState_total_cs env fuel st hfuel, ?_, ?_, ?_, ?_⟩
  · obtain ⟨w, s, _, hrun, _, _, _, hcs, _⟩ := SD_sendCommand_spec env fuel cmd arg st hfuel
    exact ⟨_, s, hrun, hcs⟩
  · intro h12 f res s h
    exact send_cmd_cs env f cmd arg res st s h12 h
  · intro h12 hcmd s1 hsel
    have hrun : send_cmd env (fuel + 1) cmd arg st = some (0xFF, s1) := by
      rw [send_cmd_plain env fuel cmd arg st (land_80_of_lt cmd hcmd)]
      exact send_cmd_body_timeout env fuel cmd arg st s1 h12 hsel
    refine ⟨hrun, ?_⟩
    rcases send_cmd_cs env (fuel + 1) cmd arg 0xFF st s1 h12 hrun with hc | ⟨hc, _⟩
    · obtain ⟨n, hn⟩ := select_log env fuel _ 0 s1 hsel
      rcases hn with ⟨h1, _⟩ | ⟨_, hcs, _⟩
      · omega
      · exact hcs
    · exact hc
  · intro h12 hcmd s1 hsel
    obtain ⟨m, s, _, hrun, _, hcs, _⟩ :=
      send_cmd_body_run env fuel cmd arg st s1 (by omega) (Or.inr ⟨h12, hsel⟩)
    obtain ⟨n, hn⟩ := select_log env fuel _ 1 s1 hsel
    have hs1 : s1.cs = true := by
      rcases hn with ⟨_, hc, _⟩ | ⟨h0, _⟩
      · exact hc
      · omega
    rw [← send_cmd_plain env fuel cmd arg st (land_80_of_lt cmd hcmd)] at hrun
    exact ⟨_, s, hrun, by rw [hcs, hs1]⟩
  · obtain ⟨m, s, _, hrun, _, hcs, _⟩ :=
      send_cmd_body_run env fuel CMD12 arg st st (by omega) (Or.inl ⟨rfl, rfl⟩)
    rw [← send_cmd_plain env fuel CMD12 arg st (by decide)] at hrun
    exact ⟨_, s, hrun, hcs⟩

/-- Witness for C21 (amended): CMD0 against `envA` from the initial state. -/
theorem chip_select_at_return_witness :
    (∃ r s, SD_sendCommand envA 256 CMD0 0 st0 = some (r, s) ∧ s.cs = false) ∧
    (∃ r s, SD_GoIdleState envA 256 st0 = some (r, s) ∧ s.cs = false) ∧
    (CMD0 ≠ CMD12 → ∀ f res s, send_cmd envA f CMD0 0 st0 = some (res, s) →
      s.cs = true ∨ (s.cs = false ∧ res = 0xFF)) ∧
    (CMD0 ≠ CMD12 → CMD0 < 0x80 → ∀ s1, select envA 256 (deselect envA st0) = some (0, s1) →
      send_cmd envA (256 + 1) CMD0 0 st0 = some (0xFF, s1) ∧ s1.cs = false) ∧
    (CMD0 ≠ CMD12 → CMD0 < 0x80 → ∀ s1, select envA 256 (deselect envA st0) = some (1, s1) →
      ∃ res s, send_cmd envA (256 + 1) CMD0 0 st0 = some (res, s) ∧ s.cs = true) ∧
    (∃ res s, send_cmd envA (256 + 1) CMD12 0 st0 = some (res, s) ∧ s.cs = st0.cs) :=
  chip_select_at_return envA 256 CMD0 0 st0 (by decide)

/-- C22: `rcvr_datablock` stops polling at the first received byte that is
not 0xFF.  If that byte is not 0xFE it returns 0 in the state right after that
poll: nothing more is exchanged, the countdown is whatever is left of the
200, the buffer is the caller's buffer unchanged.  Nothing is assumed about
what the card would send afterwards. -/
theorem rcvr_datablock_bad_token (env : Env) (st : State) (buff : Nat → Nat)
    (btr n fuel : Nat)
    (hff : ∀ j, j < n → env.card (st.pos + j) % 256 = 0xFF)
    (hlt : ∀ j, j < n → elapsed env st.pos (j + 1) < 200)
    (hne : env.card (st.pos + n) % 256 ≠ 0xFF)
    (hnt : env.card (st.pos + n) % 256 ≠ 0xFE)
    (hf : n < fuel) :
    ∃ st2, rcvr_datablock env fuel buff btr st = some (0, buff, st2) ∧
      st2.pos = st.pos + (n + 1) ∧
      st2.log = st.log ++ fillers env st.pos (n + 1) ∧
      st2.Timer1 = 200 - elapsed env st.pos (n + 1) ∧
      st2.cs = st.cs := by
  have hloop := token_loop_stop env n fuel st hf
    (fun j hj => ⟨hff j hj, hlt j hj⟩) (Or.inl hne)
  refine ⟨polls env (n + 1) (Timer_Counter1Set 200 st), ?_, ?_, ?_, ?_, ?_⟩
  · unfold rcvr_datablock
    rw [hloop]
    simp only [hnt, ne_eq, not_false_eq_true, if_true]
  · rw [polls_eq]; rfl
  · rw [polls_eq]; rfl
  · rw [polls_eq]; rfl
  · rw [polls_eq]; rfl

set_option maxRecDepth 100000 in
/-- Witness for C22: against `envG` the second byte is 0x0B, and the start
token would have come with the third. -/
theorem rcvr_datablock_bad_token_witness :
    ∃ st2, rcvr_datablock envG 2 (fun i => i) 3 st0 = some (0, (fun i => i), st2) ∧
      st2.pos = st0.pos + (1 + 1) ∧
      st2.log = st0.log ++ fillers envG st0.pos (1 + 1) ∧
      st2.Timer1 = 200 - elapsed envG st0.pos (1 + 1) ∧
      st2.cs = st0.cs :=
  rcvr_datablock_bad_token envG st0 (fun i => i) 3 1 2 (by decide) (by decide) (by decide)
    (by decide) (by decide)

/-! ## `dec32` -/

theorem read_decimal_snoc (mem : Int → Nat) (n : Nat) :
    ∀ (s : Int) (acc : Nat),
      read_decimal mem s (n + 1) acc = read_decimal mem s n acc * 10 + (mem (s + n) - 48) := by
  induction n with
  | zero =>
    intro s acc
    simp [read_decimal]
  | succ n ih =>
    intro s acc
    rw [read_decimal, ih (s + 1) (acc * 10 + (mem s - 48))]
    rw [show s + 1 + (n : Int) = s + ((n + 1 : Nat) : Int) by push_cast; omega]
    rfl

theorem read_decimal_congr (mem mem2 : Int → Nat) (n : Nat) :
    ∀ (s : Int) (acc : Nat), (∀ j, s ≤ j → j < s + n → mem2 j = mem j) →
      read_decimal mem2 s n acc = read_decimal mem s n acc := by
  induction n with
  | zero =>
    intro s acc _
    rfl
  | succ n ih =>
    intro s acc h
    rw [read_decimal, read_decimal, h s (le_refl _) (by push_cast; omega)]
    exact ih (s + 1) _ (fun j h1 h2 => h j (by omega) (by push_cast; omega))

/-- The digit loop of `dec32` entered with pointer `s`, value `i` and buffer
`mem`: it stops after `k` rounds with the pointer at `s - k`, the `k` digits
of `i` stored from there on and nothing else changed. -/
theorem dec32_loop_spec (fuel : Nat) :
    ∀ (i : Nat) (s : Int) (mem : Int → Nat), 1 ≤ fuel → i < 10 ^ fuel →
      ∃ (k : Nat) (mem2 : Int → Nat), 1 ≤ k ∧ k ≤ fuel ∧ i < 10 ^ k ∧
        do_while
          (fun p : Int × Nat × (Int → Nat) =>
            (p.1 - 1, p.2.1 / 10, Function.update p.2.2 (p.1 - 1) (48 + p.2.1 % 10)))
          (fun p => (p.2.1 != 0, p)) fuel (s, i, mem) = some (s - k, 0, mem2) ∧
        (∀ j, (j < s - k ∨ s ≤ j) → mem2 j = mem j) ∧
        (∀ j, s - k ≤ j → j < s → 48 ≤ mem2 j ∧ mem2 j ≤ 57) ∧
        (i ≠ 0 → mem2 (s - k) ≠ 48) ∧
        (i = 0 → k = 1 ∧ mem2 (s - 1) = 48) ∧
        read_decimal mem2 (s - k) k 0 = i := by
  induction fuel with
  | zero =>
    intro i s mem h1 _
    omega
  | succ f ih =>
    intro i s mem _ hi
    rw [do_while_succ]
    dsimp only
    by_cases hq : i / 10 = 0
    · have hlt : i < 10 := by omega
      have hone : s - ((1 : Nat) : Int) = s - 1 := by omega
      have hsame : Function.update mem (s - 1) (48 + i % 10) (s - 1) = 48 + i % 10 :=
        Function.update_same _ _ _
      refine ⟨1, Function.update mem (s - 1) (48 + i % 10), le_refl _, by omega, by omega,
        ?_, ?_, ?_, ?_, ?_, ?_⟩
      · rw [if_neg (by simp [hq]), hq]
        rfl
      · intro j hj
        rw [Function.update_noteq (by omega)]
      · intro j h1 h2
        have hj : j = s - 1 := by omega
        rw [hj, hsame]
        omega
      · intro hne
        rw [hone, hsame]
        omega
      · intro h0
        refine ⟨rfl, ?_⟩
        rw [hsame]
        omega
      · rw [hone]
        simp only [read_decimal]
        rw [hsame]
        omega
    · have hf : 1 ≤ f := by
        rcases Nat.eq_zero_or_pos f with h0 | hpos
        · subst h0
          have : i < 10 := by simpa using hi
          omega
        · exact hpos
      have hq2 : i / 10 < 10 ^ f := by
        rw [pow_succ] at hi
        omega
      obtain ⟨k, mem2, hk1, hkf, hik, hrun, hframe, hdig, hlead, _, hval⟩ :=
        ih (i / 10) (s - 1) (Function.update mem (s - 1) (48 + i % 10)) hf hq2
      have hsk : s - ((k + 1 : Nat) : Int) = s - 1 - (k : Int) := by push_cast; omega
      have hlast : mem2 (s - 1) = 48 + i % 10 := by
        rw [hframe (s - 1) (Or.inr (le_refl _))]
        simp only [Function.update_same]
      refine ⟨k + 1, mem2, by omega, by omega, ?_, ?_, ?_, ?_, ?_, ?_, ?_⟩
      · rw [pow_succ]
        omega
      · rw [if_pos (by simp [hq]), hrun, hsk]
      · intro j hj
        rw [hsk] at hj
        rw [hframe j (by omega), Function.update_noteq (by omega)]
      · intro j h1 h2
        rw [hsk] at h1
        by_cases hj : j = s - 1
        · rw [hj, hlast]
          omega
        · exact hdig j h1 (by omega)
      · intro _
        rw [hsk]
        exact hlead hq
      · intro h0
        omega
      · rw [hsk, read_decimal_snoc, hval]
        rw [show s - 1 - (k : Int) + (k : Int) = s - 1 by omega, hlast]
        omega

/-- C23: for every 32-bit value `i`, `dec32(i)` returns a pointer `s` into the
16-byte buffer with `5 ≤ s ≤ 14`, so the string has between 1 and 10
characters; the bytes from `s` to offset 14 are decimal digit characters, the
byte at offset 15 is NUL, the first digit is not '0' unless `i` is 0, in
which case the string is "0", and reading the digits as a base-10 number
gives `i`.  No byte outside offsets `s .. 15` is written. -/
theorem dec32_canonical (fuel i : Nat) (str : Int → Nat) (hi : i < 2 ^ 32)
    (hfuel : 10 ≤ fuel) :
    ∃ (s : Int) (mem : Int → Nat), dec32 fuel str i = some (s, mem) ∧
      5 ≤ s ∧ s ≤ 14 ∧
      mem 15 = 0 ∧
      (∀ j, s ≤ j → j ≤ 14 → 48 ≤ mem j ∧ mem j ≤ 57) ∧
      (i = 0 → s = 14 ∧ mem 14 = 48) ∧
      (i ≠ 0 → mem s ≠ 48) ∧
      read_decimal mem s (15 - s).toNat 0 = i ∧
      (∀ j, (j < s ∨ 15 < j) → mem j = str j) := by
  obtain ⟨k, mem2, hk1, hk10, _, hrun, hframe, hdig, hlead, hzero, hval⟩ :=
    dec32_loop_spec 10 i (16 - 1) (Function.update str (16 - 1) 0) (by omega)
      (by
        have : (2 : Nat) ^ 32 < 10 ^ 10 := by norm_num
        omega)
  have hrun2 := do_while_mono _ _ 10 fuel _ _ hrun hfuel
  refine ⟨16 - 1 - (k : Int), mem2, ?_, by omega, by omega, ?_, ?_, ?_, ?_, ?_, ?_⟩
  · unfold dec32
    simp only
    rw [hrun2]
  · rw [hframe 15 (Or.inr (by omega))]
    simp
  · intro j h1 h2
    exact hdig j h1 (by omega)
  · intro h0
    obtain ⟨hk, hm⟩ := hzero h0
    subst hk
    exact ⟨by simp, by simpa using hm⟩
  · exact hlead
  · rw [show (15 - (16 - 1 - (k : Int))).toNat = k by omega]
    exact hval
  · intro j hj
    rw [hframe j (by omega), Function.update_noteq (by omega)]

/-- Witness for C23: `dec32(1205)` on a buffer filled with the byte 7. -/
theorem dec32_canonical_witness :
    ∃ (s : Int) (mem : Int → Nat), dec32 10 (fun _ => 7) 1205 = some (s, mem) ∧
      5 ≤ s ∧ s ≤ 14 ∧
      mem 15 = 0 ∧
      (∀ j, s ≤ j → j ≤ 14 → 48 ≤ mem j ∧ mem j ≤ 57) ∧
      (1205 = 0 → s = 14 ∧ mem 14 = 48) ∧
      (1205 ≠ 0 → mem s ≠ 48) ∧
      read_decimal mem s (15 - s).toNat 0 = 1205 ∧
      (∀ j, (j < s ∨ 15 < j) → mem j = (fun _ => 7) j) :=
  dec32_canonical 10 1205 (fun _ => 7) (by decide) (by decide)

end SDCard
